import Mathlib

/-!
Verification development for the Resume AI Assistant service
(FastAPI app in `app/main.py`, Gemini client in `app/utils/gemini_service.py`,
URL fetcher in `app/utils/url_downloader.py`, file handling in
`app/utils/file_processor.py`).

Modelling conventions:
* Python strings are Lean `String`s (lists of characters).
* Python numbers occurring in JSON payloads, and `float` values, are modelled
  as exact rationals `ℚ`; `round(x, 2)` is modelled as exact round-half-to-even
  at two decimal places.
* Fallible Python code (raising exceptions) is modelled with `Except String`,
  the error string mirroring the raised message (interpolated numeric parts of
  messages are elided where no claim depends on them).
* The remote Gemini call `model.generate_content` is an oracle
  `String → Except String String` mapping a model name to either a raised
  error or the response text (`response.text`).
* The PDF / DOCX parsing libraries are oracles producing the list of page
  (respectively paragraph) texts or a raised error.
-/

/-- Python whitespace for `str.strip()` and the regex class `\s` (ASCII part). -/
def isPySpace (c : Char) : Bool :=
  c == ' ' || c == '\t' || c == '\n' || c == '\r' || c == '\x0b' || c == '\x0c'

/-- `str.strip()` on a character list: drop leading and trailing whitespace. -/
def stripChars (l : List Char) : List Char :=
  ((l.dropWhile isPySpace).reverse.dropWhile isPySpace).reverse

/-- Python `str.strip()`. -/
def pyStrip (s : String) : String := ⟨stripChars s.data⟩

/-- `', '.join(xs)` -/
def joinComma : List String → String
  | [] => ""
  | [x] => x
  | x :: xs => x ++ ", " ++ joinComma xs

/-- `"\n".join(xs)` -/
def joinNewline : List String → String
  | [] => ""
  | [x] => x
  | x :: xs => x ++ "\n" ++ joinNewline xs

/-- Bool test: `p` is a suffix of `s` (Python `str.endswith`). -/
def strEndsWith (s p : String) : Bool := List.isSuffixOf p.data s.data

/-- ASCII lower-casing of one character (Python `str.lower` on the ASCII
range, all that the source applies it to). -/
def charLower (c : Char) : Char :=
  if 'A' ≤ c && c ≤ 'Z' then Char.ofNat (c.toNat + 32) else c

/-- Python `str.lower()`. -/
def strToLower (s : String) : String := ⟨s.data.map charLower⟩

/-- `s.split(sep)[-1]` for the single-character separator `/`
(the substring after the last slash; the whole string when there is none). -/
def lastPathComponent (s : String) : String :=
  ⟨(s.data.reverse.takeWhile (fun c => c != '/')).reverse⟩

/-- The remainder after the first occurrence of `sep` in `l`
(`none` when `sep` does not occur). -/
def afterFirst (sep : List Char) : List Char → Option (List Char)
  | [] => if sep.isEmpty then some [] else none
  | c :: tl =>
    if List.isPrefixOf sep (c :: tl) then some ((c :: tl).drop sep.length)
    else afterFirst sep tl

/-- The segment before the first occurrence of `sep` in `l` (all of `l` when
`sep` does not occur). -/
def upToFirst (sep : List Char) : List Char → List Char
  | [] => []
  | c :: tl =>
    if List.isPrefixOf sep (c :: tl) then []
    else c :: upToFirst sep tl

/-- Bool test: `needle in hay` (Python substring containment). -/
def strContainsSub (hay needle : String) : Bool :=
  go hay.data
where
  go : List Char → Bool
    | [] => List.isEmpty needle.data
    | c :: cs => List.isPrefixOf needle.data (c :: cs) || go cs

/-- One pass of `re.sub(pat ++ tail*, '', text)` where `pat` is a literal
pattern (nonempty: head `p0`, rest `prest`) and `tail` is a character class
matched greedily: scan left to right, delete every occurrence of the literal
followed by the maximal run of `tail`-characters, and continue scanning after
the deleted region (re.sub never rescans replaced text).  Fuel-driven so the
kernel can evaluate it; `fuel = l.length` always suffices since each step
consumes at least one character. -/
def reSubDelF (p0 : Char) (prest : List Char) (p : Char → Bool) :
    Nat → List Char → List Char
  | 0, l => l
  | _ + 1, [] => []
  | fu + 1, c :: cs =>
    if List.isPrefixOf (p0 :: prest) (c :: cs) then
      reSubDelF p0 prest p fu (((c :: cs).drop (prest.length + 1)).dropWhile p)
    else
      c :: reSubDelF p0 prest p fu cs

def reSubDel (p0 : Char) (prest : List Char) (p : Char → Bool) (l : List Char) :
    List Char :=
  reSubDelF p0 prest p l.length l

/-- `re.sub(r'```json\s*', '', s)` — the (correct) fence stripper used by
`analyze_resume_for_ats` and `generate_cover_letter`. -/
def subJsonFence (s : String) : String :=
  ⟨reSubDel '`' ['`', '`', 'j', 's', 'o', 'n'] isPySpace s.data⟩

/-- `re.sub(r'```\s*', '', s)` — bare-fence stripper used by
`analyze_resume_for_ats` and `generate_cover_letter`. -/
def subBareFence (s : String) : String :=
  ⟨reSubDel '`' ['`', '`'] isPySpace s.data⟩

/-- `re.sub(r"```json\\s*", "", s)` as written in
`generate_ats_optimized_resume` (line 318): inside the raw string `\\` is an
escaped backslash, so the regex matches the literal text three-backticks +
`json` + one backslash, followed by a run of letter `s` — not whitespace. -/
def subJsonFenceBroken (s : String) : String :=
  ⟨reSubDel '`' ['`', '`', 'j', 's', 'o', 'n', '\\'] (fun c => c == 's') s.data⟩

/-- `re.sub(r"```\\s*", "", s)` as written in `generate_ats_optimized_resume`
(line 319): matches three backticks + one literal backslash + a run of `s`. -/
def subBareFenceBroken (s : String) : String :=
  ⟨reSubDel '`' ['`', '`', '\\'] (fun c => c == 's') s.data⟩

/-! ### JSON values and a model of `json.loads`

The parser follows the JSON grammar accepted by Python's `json.loads`
(strict mode): objects, arrays, strings with the common escapes, numbers with
optional fraction and exponent, `true` / `false` / `null`, with the four JSON
whitespace characters between tokens.  (`\uXXXX` escapes and the nonstandard
`NaN` / `Infinity` literals are outside this model.)  Arrays and objects use
bespoke list types so that decidable equality is derivable. -/

mutual

inductive Json where
  | null : Json
  | bool (b : Bool) : Json
  | num (q : ℚ) : Json
  | str (s : String) : Json
  | arr (elems : JsonList) : Json
  | obj (fields : JsonPairs) : Json

inductive JsonList where
  | nil : JsonList
  | cons (hd : Json) (tl : JsonList) : JsonList

inductive JsonPairs where
  | nil : JsonPairs
  | cons (k : String) (v : Json) (tl : JsonPairs) : JsonPairs

end

deriving instance DecidableEq for Json
deriving instance DecidableEq for JsonList
deriving instance DecidableEq for JsonPairs
deriving instance DecidableEq for Except

/-- JSON inter-token whitespace (exactly the four characters `json.loads` skips). -/
def skipWsJ (l : List Char) : List Char :=
  l.dropWhile (fun c => c == ' ' || c == '\t' || c == '\n' || c == '\r')

/-- Parse the body of a JSON string (after the opening quote). Handles the
single-character escapes; rejects `\u` escapes and raw control characters
(as `json.loads` does in strict mode). -/
def parseStrBody : List Char → List Char → Option (List Char × List Char)
  | [], _ => none
  | '"' :: rest, acc => some (acc.reverse, rest)
  | '\\' :: e :: rest, acc =>
    match e with
    | '"' => parseStrBody rest ('"' :: acc)
    | '\\' => parseStrBody rest ('\\' :: acc)
    | '/' => parseStrBody rest ('/' :: acc)
    | 'n' => parseStrBody rest ('\n' :: acc)
    | 't' => parseStrBody rest ('\t' :: acc)
    | 'r' => parseStrBody rest ('\r' :: acc)
    | 'b' => parseStrBody rest ('\x08' :: acc)
    | 'f' => parseStrBody rest ('\x0c' :: acc)
    | _ => none
  | '\\' :: [], _ => none
  | c :: rest, acc =>
    if c.toNat < 32 then none else parseStrBody rest (c :: acc)

def isDigitCh (c : Char) : Bool := '0' ≤ c && c ≤ '9'

def digitsToNat (ds : List Char) : Nat :=
  ds.foldl (fun a c => a * 10 + (c.toNat - 48)) 0

/-- Take one or more digits. -/
def takeDigits1 (l : List Char) : Option (List Char × List Char) :=
  let ds := l.takeWhile isDigitCh
  if ds.isEmpty then none else some (ds, l.drop ds.length)

/-- JSON integer part: `0`, or a nonzero digit followed by digits. -/
def parseIntPart (l : List Char) : Option (Nat × List Char) :=
  match l with
  | '0' :: rest => some (0, rest)
  | c :: _ =>
    if isDigitCh c then
      (takeDigits1 l).map (fun x => (digitsToNat x.1, x.2))
    else none
  | [] => none

/-- JSON number (sign, integer part, optional fraction, optional exponent),
as an exact rational.  Built with `Rat.divInt` over integer arithmetic. -/
def parseNumber (l : List Char) : Option (ℚ × List Char) :=
  let (neg, l1) := match l with
    | '-' :: rest => (true, rest)
    | _ => (false, l)
  match parseIntPart l1 with
  | none => none
  | some (ip, l2) =>
    let (fracDigits, l3) := match l2 with
      | '.' :: r =>
        match takeDigits1 r with
        | some (ds, rest) => (some ds, rest)
        | none => (none, '.' :: r)
      | _ => (none, l2)
    match l2, fracDigits with
    | '.' :: _, none => none
    | _, _ =>
      let (expVal, l4) : Option Int × List Char := match l3 with
        | 'e' :: r => parseExp r
        | 'E' :: r => parseExp r
        | _ => (none, l3)
      match l3, expVal with
      | 'e' :: _, none => none
      | 'E' :: _, none => none
      | _, _ =>
        let fl : Nat := (fracDigits.getD []).length
        let mantissa : Nat := ip * 10 ^ fl + digitsToNat (fracDigits.getD [])
        let signedM : Int := if neg then -(mantissa : Int) else (mantissa : Int)
        let q : ℚ := match expVal with
          | none => Rat.divInt signedM ((10 : Int) ^ fl)
          | some e =>
            if 0 ≤ e then Rat.divInt (signedM * (10 : Int) ^ e.toNat) ((10 : Int) ^ fl)
            else Rat.divInt signedM ((10 : Int) ^ fl * (10 : Int) ^ (-e).toNat)
        some (q, l4)
where
  parseExp (r : List Char) : Option Int × List Char :=
    let (eneg, r1) := match r with
      | '+' :: rr => (false, rr)
      | '-' :: rr => (true, rr)
      | _ => (false, r)
    match takeDigits1 r1 with
    | some (ds, rest) =>
      (some (if eneg then -(digitsToNat ds : Int) else (digitsToNat ds : Int)), rest)
    | none => (none, r)

mutual

/-- Fuel-driven JSON value parser (model of the recursive descent in
`json.loads`). -/
def parseV : Nat → List Char → Option (Json × List Char)
  | 0, _ => none
  | fu + 1, l =>
    match skipWsJ l with
    | 'n' :: 'u' :: 'l' :: 'l' :: r => some (.null, r)
    | 't' :: 'r' :: 'u' :: 'e' :: r => some (.bool true, r)
    | 'f' :: 'a' :: 'l' :: 's' :: 'e' :: r => some (.bool false, r)
    | '"' :: r => (parseStrBody r []).map (fun x => (.str ⟨x.1⟩, x.2))
    | '[' :: r => (parseItems fu true r).map (fun x => (.arr x.1, x.2))
    | '{' :: r => (parseFields fu true r).map (fun x => (.obj x.1, x.2))
    | l' => (parseNumber l').map (fun x => (.num x.1, x.2))

/-- Elements of a JSON array (after `[`). -/
def parseItems : Nat → Bool → List Char → Option (JsonList × List Char)
  | 0, _, _ => none
  | fu + 1, first, l =>
    let l' := skipWsJ l
    match l', first with
    | ']' :: r, true => some (.nil, r)
    | _, _ =>
      match parseV fu l' with
      | none => none
      | some (v, rest) =>
        match skipWsJ rest with
        | ']' :: rr => some (.cons v .nil, rr)
        | ',' :: rr => (parseItems fu false rr).map (fun x => (.cons v x.1, x.2))
        | _ => none

/-- Members of a JSON object (after an opening brace). -/
def parseFields : Nat → Bool → List Char → Option (JsonPairs × List Char)
  | 0, _, _ => none
  | fu + 1, first, l =>
    let l' := skipWsJ l
    match l', first with
    | '}' :: r, true => some (.nil, r)
    | _, _ =>
      match l' with
      | '"' :: r =>
        match parseStrBody r [] with
        | none => none
        | some (k, rest) =>
          match skipWsJ rest with
          | ':' :: r2 =>
            match parseV fu r2 with
            | none => none
            | some (v, r3) =>
              match skipWsJ r3 with
              | '}' :: rr => some (.cons ⟨k⟩ v .nil, rr)
              | ',' :: rr =>
                (parseFields fu false rr).map (fun x => (.cons ⟨k⟩ v x.1, x.2))
              | _ => none
          | _ => none
      | _ => none

end

/-- Model of Python `json.loads`: parse one value, allow trailing whitespace,
require the whole input consumed; `none` models `json.JSONDecodeError`. -/
def json_loads (s : String) : Option Json :=
  match parseV (s.data.length * 2 + 8) s.data with
  | some (v, rest) => if (skipWsJ rest).isEmpty then some v else none
  | none => none

/-- Last binding of key `k` in a decoded object (Python dicts keep the last
occurrence of a duplicated key). -/
def JsonPairs.find : JsonPairs → String → Option Json
  | .nil, _ => none
  | .cons k' v tl, k =>
    match JsonPairs.find tl k with
    | some r => some r
    | none => if k' = k then some v else none

/-- `dict.get(k, d)` on a decoded object. -/
def pyGetD (fields : JsonPairs) (k : String) (d : Json) : Json :=
  (fields.find k).getD d

/-- `dict.get(k)` (default `None`) on a decoded object. -/
def pyGet (fields : JsonPairs) (k : String) : Option Json :=
  fields.find k

def JsonPairs.isEmptyP : JsonPairs → Bool
  | .nil => true
  | .cons _ _ _ => false

def JsonList.isEmptyL : JsonList → Bool
  | .nil => true
  | .cons _ _ => false

/-- Python truthiness of a JSON-decoded value. -/
def pyTruthy : Json → Bool
  | .null => false
  | .bool b => b
  | .num q => decide (q ≠ 0)
  | .str s => !s.isEmpty
  | .arr xs => !xs.isEmptyL
  | .obj fs => !fs.isEmptyP

/-- `value or ""` applied to an optional dict entry (absent key → `None`). -/
def pyOrEmptyStr (o : Option Json) : Json :=
  match o with
  | some v => if pyTruthy v then v else .str ""
  | none => .str ""

/-- `value or None` applied to an optional dict entry (handler response
mapping turns falsy values into `None`). -/
def pyOrNull (o : Option Json) : Json :=
  match o with
  | some v => if pyTruthy v then v else .null
  | none => .null

/-- `float(s)` on a string: optional sign and plain decimal digits with an
optional decimal point (exotic accepted spellings such as exponents or
`"inf"` are outside this model). -/
def pyFloatOfString (s : String) : Option ℚ :=
  let l := stripChars s.data
  let (neg, l1) := match l with
    | '-' :: r => (true, r)
    | '+' :: r => (false, r)
    | _ => (false, l)
  let ipart := l1.takeWhile isDigitCh
  let l2 := l1.drop ipart.length
  match l2 with
  | [] =>
    if ipart.isEmpty then none
    else some (ratOfParts neg (digitsToNat ipart) 0 0)
  | '.' :: r =>
    let fpart := r.takeWhile isDigitCh
    if (r.drop fpart.length).isEmpty then
      if ipart.isEmpty && fpart.isEmpty then none
      else some (ratOfParts neg (digitsToNat ipart) (digitsToNat fpart) fpart.length)
    else none
  | _ => none
where
  ratOfParts (neg : Bool) (ip fp : Nat) (fl : Nat) : ℚ :=
    let m : Int := (ip * 10 ^ fl + fp : Nat)
    Rat.divInt (if neg then -m else m) ((10 : Int) ^ fl)

/-- Python `float(x)` on a decoded JSON value (`TypeError`/`ValueError` → `none`). -/
def pyFloat : Json → Option ℚ
  | .num q => some q
  | .bool b => some (if b then 1 else 0)
  | .str s => pyFloatOfString s
  | _ => none

/-- Python `int(s)` for header values: optional sign and digits. -/
def pyInt (s : String) : Option Int :=
  let l := stripChars s.data
  let (neg, l1) := match l with
    | '-' :: r => (true, r)
    | '+' :: r => (false, r)
    | _ => (false, l)
  if l1.isEmpty || !(l1.all isDigitCh) then none
  else some (if neg then -(digitsToNat l1 : Int) else (digitsToNat l1 : Int))

/-- Round-half-to-even of the fraction `n / d` (for `d > 0`), on integers:
`f` is the floor, `r2` is twice the remainder, compared against `d` to detect
below / above / exactly one half. -/
def rhe2 (n : Int) (d : Nat) : Int :=
  let f := Int.fdiv n d
  let r2 := 2 * (n - f * d)
  if r2 < (d : Int) then f
  else if (d : Int) < r2 then f + 1
  else if f % 2 = 0 then f else f + 1

/-- Model of Python `round(x, 2)` on exact rationals: round-half-to-even at
two decimal places. -/
def round2 (q : ℚ) : ℚ := Rat.divInt (rhe2 (q.num * 100) q.den) 100

/-- `max(0, min(100, score))` from `analyze_resume_for_ats`. -/
def pyClamp (q : ℚ) : ℚ := max 0 (min 100 q)

/-! ### `GeminiService` (app/utils/gemini_service.py) -/

/-- `self.model_names` / `self.current_model_index` / `self.model` of
`GeminiService`.  The `genai.GenerativeModel` object held in `self.model` is
represented by the model name it was constructed from. -/
structure GeminiService where
  model_names : List String
  current_model_index : Nat
  model : String
deriving DecidableEq

/-- The hard-coded preferred roster (best quality first). -/
def preferredModels : List String :=
  ["gemini-2.5-pro", "gemini-2.5-flash", "gemini-pro-latest",
   "gemini-flash-latest", "gemini-2.0-flash"]

/-- One entry of `genai.list_models()`. -/
structure ModelInfo where
  name : String
  supported_generation_methods : List String

/-- The `available_model_names` loop of `__init__`: keep the last path
component of each model name whose supported methods include
`generateContent`. -/
def availableNames (models : List ModelInfo) : List String :=
  models.filterMap (fun m =>
    if ("generateContent") ∈ m.supported_generation_methods then
      some (lastPathComponent m.name)
    else none)

/-- Roster computation in `__init__`: on a successful listing, filter the
preferred list by availability (preserving order); if that is empty but some
model is available, take the first five available; if `list_models` raises,
keep the preferred list unchanged. -/
def computeRoster (listing : Except Unit (List ModelInfo)) : List String :=
  match listing with
  | .error _ => preferredModels
  | .ok models =>
    let avail := availableNames models
    let filtered := preferredModels.filter (fun n => n ∈ avail)
    if filtered.isEmpty && !avail.isEmpty then avail.take 5 else filtered

def noModelsMsg : String :=
  "No Gemini models available. Please check your API key permissions."

/-- `GeminiService.__init__` (after the API-key check): computes the roster,
fails when it is empty, else selects the first roster entry as the initial
model with index 0. -/
def geminiInit (listing : Except Unit (List ModelInfo)) :
    Except String GeminiService :=
  let names := computeRoster listing
  if names.isEmpty then .error noModelsMsg
  else .ok { model_names := names, current_model_index := 0, model := names.headD "" }

def noResponseMsg : String :=
  "Failed to get response from any Gemini model. Last error: None"

/-- The error raised when the last roster entry fails (`ctx` is the
operation-specific prefix of the f-string). -/
def triedAllMsg (ctx e : String) (names : List String) : String :=
  ctx ++ e ++ ". Tried models: " ++ joinComma names ++
    ". Please check your API key permissions."

/-- The `for i in range(len(self.model_names))` fallback loop shared by the
three operations.  `seq` is the list of models attempted (`self.model` at
`i = 0`, `self.model_names[i]` for `i > 0` — the source only reassigns
`self.model` and `self.current_model_index` when `i > 0`); `attempts`
accumulates the names tried.  Returns the response (or raised error), the
mutated service state and the attempt trace. -/
def tryModelsGo (oracle : String → Except String String) (names : List String)
    (ctx : String) :
    List String → Nat → GeminiService → List String →
      Except String String × GeminiService × List String
  | [], _, st, attempts => (.error noResponseMsg, st, attempts)
  | m :: rest, i, st, attempts =>
    let st' := if i = 0 then st
      else { st with current_model_index := i, model := m }
    match oracle m with
    | .ok txt => (.ok txt, st', attempts ++ [m])
    | .error e =>
      match rest with
      | [] => (.error (triedAllMsg ctx e names), st', attempts ++ [m])
      | r :: rs => tryModelsGo oracle names ctx (r :: rs) (i + 1) st' (attempts ++ [m])

/-- The fallback loop of one operation, starting from service state `st`.
When the roster is empty the loop body never runs and the code falls through
to the `response is None` error. -/
def tryModels (oracle : String → Except String String) (ctx : String)
    (st : GeminiService) :
    Except String String × GeminiService × List String :=
  match st.model_names with
  | [] => (.error noResponseMsg, st, [])
  | _ :: rest => tryModelsGo oracle st.model_names ctx (st.model :: rest) 0 st []

/-- Normalization applied to `response.text` by `analyze_resume_for_ats` and
`generate_cover_letter`: strip, remove ```json fences, remove bare ```
fences, strip again. -/
def cleanResponse (raw : String) : String :=
  pyStrip (subBareFence (subJsonFence (pyStrip raw)))

/-- Normalization as actually written in `generate_ats_optimized_resume`
(lines 318–319, with the doubled backslashes): the substitutions only fire on
a literal backslash after the backticks, so real markdown fences survive. -/
def cleanResponseBroken (raw : String) : String :=
  pyStrip (subBareFenceBroken (subJsonFenceBroken (pyStrip raw)))

def scoreParseErrMsg : String := "Failed to parse Gemini response as JSON"
def scoreProcErrMsg : String := "Error processing Gemini response"

/-- Response post-processing of `analyze_resume_for_ats` (lines 131–164):
normalize, `json.loads`, coerce/clamp/round the score, and build the result
dict.  A non-dict payload or a score that `float()` rejects raises and is
wrapped by the generic handler (`scoreProcErrMsg`). -/
def processScoreResponse (raw : String) : Except String (List (String × Json)) :=
  let t := cleanResponse raw
  match json_loads t with
  | none => .error scoreParseErrMsg
  | some (.obj fields) =>
    match pyFloat (pyGetD fields ("score") (.num 0)) with
    | none => .error scoreProcErrMsg
    | some q =>
      .ok [("score", .num (round2 (pyClamp q))),
           ("feedback", pyGetD fields ("feedback") (.str "No feedback provided")),
           ("strengths", pyGetD fields ("strengths") (.arr .nil)),
           ("weaknesses", pyGetD fields ("weaknesses") (.arr .nil)),
           ("recommendations", pyGetD fields ("recommendations") (.arr .nil))]
  | some _ => .error scoreProcErrMsg

def coverParseErrMsg : String := "Failed to parse Gemini cover letter response as JSON"
def coverProcErrMsg : String := "Error processing Gemini cover letter response"
def coverNoFieldMsg : String :=
  "Error processing Gemini cover letter response: " ++
    "Gemini response did not contain a cover_letter field."

/-- Response post-processing of `generate_cover_letter` (lines 227–256):
normalize, parse, require a nonempty `cover_letter`, record `model_used` from
`self.model_names[self.current_model_index]`. -/
def processCoverResponse (raw : String) (names : List String) (idx : Nat) :
    Except String (List (String × Json)) :=
  let t := cleanResponse raw
  match json_loads t with
  | none => .error coverParseErrMsg
  | some (.obj fields) =>
    match pyGetD fields ("cover_letter") (.str "") with
    | .str s =>
      let c := pyStrip s
      if c.isEmpty then .error coverNoFieldMsg
      else
        .ok [("cover_letter", .str c),
             ("model_used", .str (names.getD idx "")),
             ("job_title", pyOrEmptyStr (pyGet fields ("job_title"))),
             ("company_name", pyOrEmptyStr (pyGet fields ("company_name"))),
             ("notes", pyOrEmptyStr (pyGet fields ("notes")))]
    | _ => .error coverProcErrMsg
  | some _ => .error coverProcErrMsg

def resumeProcErrMsg : String := "Error processing Gemini ATS resume response"
def resumeNoFieldMsg : String :=
  "Error processing Gemini ATS resume response: " ++
    "Gemini response did not contain a regenerated_resume field."
def resumeFallbackNote : String :=
  "Model returned non-JSON response; used raw text as regenerated resume."

/-- Response post-processing of `generate_ats_optimized_resume`
(lines 310–343): the normalization uses the broken patterns; a
`json.JSONDecodeError` is tolerated and falls back to the normalized text
(`response_text.strip()` at that point) as the regenerated resume. -/
def processResumeResponse (raw : String) (names : List String) (idx : Nat) :
    Except String (List (String × Json)) :=
  let t := cleanResponseBroken raw
  match json_loads t with
  | none =>
    .ok [("regenerated_resume", .str (pyStrip t)),
         ("model_used", .str (names.getD idx "")),
         ("notes", .str resumeFallbackNote)]
  | some (.obj fields) =>
    match pyGetD fields ("regenerated_resume") (.str "") with
    | .str s =>
      let r := pyStrip s
      if r.isEmpty then .error resumeNoFieldMsg
      else
        .ok [("regenerated_resume", .str r),
             ("model_used", .str (names.getD idx "")),
             ("notes", pyOrEmptyStr (pyGet fields ("notes")))]
    | _ => .error resumeProcErrMsg
  | some _ => .error resumeProcErrMsg

/-- `GeminiService.analyze_resume_for_ats`: fallback loop, then score
post-processing.  Returns the result (or raised error), the final service
state and the list of models attempted. -/
def analyze_resume_for_ats (oracle : String → Except String String)
    (st : GeminiService) :
    Except String (List (String × Json)) × GeminiService × List String :=
  match tryModels oracle ("Error calling Gemini API: ") st with
  | (.error e, st', att) => (.error e, st', att)
  | (.ok raw, st', att) => (processScoreResponse raw, st', att)

/-- `GeminiService.generate_cover_letter` (the prompt also embeds the job
description, which does not affect the modelled control flow). -/
def generate_cover_letter (oracle : String → Except String String)
    (st : GeminiService) :
    Except String (List (String × Json)) × GeminiService × List String :=
  match tryModels oracle ("Error calling Gemini API for cover letter: ") st with
  | (.error e, st', att) => (.error e, st', att)
  | (.ok raw, st', att) =>
    (processCoverResponse raw st'.model_names st'.current_model_index, st', att)

/-- `GeminiService.generate_ats_optimized_resume`. -/
def generate_ats_optimized_resume (oracle : String → Except String String)
    (st : GeminiService) :
    Except String (List (String × Json)) × GeminiService × List String :=
  match tryModels oracle ("Error calling Gemini API for ATS resume generation: ") st with
  | (.error e, st', att) => (.error e, st', att)
  | (.ok raw, st', att) =>
    (processResumeResponse raw st'.model_names st'.current_model_index, st', att)

/-! ### `FileProcessor` (app/utils/file_processor.py) -/

def ALLOWED_EXTENSIONS : List String := [".doc", ".docx", ".pdf"]

def MAX_FILE_SIZE : Nat := 10 * 1024 * 1024

/-- `FileProcessor.is_valid_extension`. -/
def is_valid_extension (filename : String) : Bool :=
  ALLOWED_EXTENSIONS.any (fun ext => strEndsWith (strToLower filename) ext)

/-- `FileProcessor.get_file_type`. -/
def get_file_type (filename : String) : String :=
  let fl := strToLower filename
  if strEndsWith fl (".pdf") then "pdf"
  else if strEndsWith fl (".docx") then "docx"
  else if strEndsWith fl (".doc") then "doc"
  else "unknown"

/-- `FileProcessor.extract_text_from_pdf`: page-by-page concatenation, each
page text followed by a newline, stripped at the end; a library failure is
wrapped.  `pdfOr` is the PyPDF2 oracle yielding the page texts. -/
def extract_text_from_pdf (pdfOr : Except String (List String)) :
    Except String String :=
  match pdfOr with
  | .ok pages => .ok (pyStrip (pages.foldl (fun acc p => acc ++ p ++ "\n") ""))
  | .error e => .error ("Error extracting text from PDF: " ++ e)

/-- `FileProcessor.extract_text_from_docx`: paragraphs joined with newlines,
stripped; a library failure is wrapped.  `docxOr` is the python-docx oracle
yielding the paragraph texts. -/
def extract_text_from_docx (docxOr : Except String (List String)) :
    Except String String :=
  match docxOr with
  | .ok paras => .ok (pyStrip (joinNewline paras))
  | .error e => .error ("Error extracting text from DOCX: " ++ e)

def docUnsupportedMsg : String :=
  "DOC files (legacy format) are not directly supported. " ++
    "Please convert your file to DOCX or PDF format."

/-- `FileProcessor.extract_text`: dispatch on the file type. -/
def extract_text (pdfOr docxOr : Except String (List String))
    (filename : String) : Except String String :=
  match get_file_type filename with
  | "pdf" => extract_text_from_pdf pdfOr
  | "docx" => extract_text_from_docx docxOr
  | "doc" => .error docUnsupportedMsg
  | ft => .error ("Unsupported file type: " ++ ft)

/-! ### `URLDownloader` (app/utils/url_downloader.py) -/

/-- Observable events of one `download_file` call, in order of occurrence.
`bodyReceived` marks the point at which the whole response body has been
transferred: `httpx.AsyncClient.get` is non-streaming, so the returned
response object already holds the complete body. -/
inductive DlEvent where
  | bodyReceived : DlEvent
  | declaredSizeRejected : DlEvent
  | actualSizeRejected : DlEvent
  | extensionRejected : DlEvent
  | returnedOk : DlEvent
  | requestFailed : DlEvent
deriving DecidableEq

/-- A (case-normalized) header map and the already-transferred body. -/
structure HttpResponse where
  headers : List (String × String)
  body : List Nat

/-- Failures of the HTTP GET itself (`raise_for_status`, timeout, transport
error). -/
inductive HttpFailure where
  | statusError (code : Nat) (text : String) : HttpFailure
  | timeout : HttpFailure
  | requestError (msg : String) : HttpFailure

/-- `headers.get(k)`: httpx header lookup (keys case-insensitive; modelled
with lowercase keys). -/
def headerGet (headers : List (String × String)) (k : String) : Option String :=
  headers.lookup k

/-- `URLDownloader._extract_filename`: Content-Disposition first, then the
URL path, then a default inferred from Content-Type. -/
def extract_filename (url : String) (headers : List (String × String)) : String :=
  let cd := (headerGet headers ("content-disposition")).getD ""
  let fromCd : Option String :=
    match afterFirst ("filename=").data cd.data with
    | some rest =>
      let seg := upToFirst ("filename=").data rest
      let fn : String := ⟨(seg.dropWhile (fun c => c == '"' || c == '\x27')
          |>.reverse.dropWhile (fun c => c == '"' || c == '\x27') |>.reverse)⟩
      if fn.isEmpty then none else some fn
    | none => none
  match fromCd with
  | some fn => fn
  | none =>
    let url_path : String := ⟨upToFirst ['?'] url.data⟩
    let filename := lastPathComponent url_path
    if filename.data.contains '.' then filename
    else
      let ct := strToLower ((headerGet headers ("content-type")).getD "")
      if strContainsSub ct ("pdf") then "resume.pdf"
      else if strContainsSub ct ("msword") || strContainsSub ct ("wordprocessingml")
        then "resume.docx"
      else "resume.pdf"

def declaredOversizeMsg : String :=
  "File size exceeds maximum allowed size of 10.0MB"

def unexpectedDlPrefix : String := "Unexpected error downloading file: "

/-- Tail of `download_file` after the declared-size check: re-check the
actual byte count, validate the extension, return content and filename.
The `ValueError`s raised inside the `try` block are re-wrapped by the final
`except Exception` clause with the "Unexpected error" prefix. -/
def downloadRest (resp : HttpResponse) (filename : String) (ev : List DlEvent) :
    Except String (List Nat × String) × List DlEvent :=
  let file_content := resp.body
  if file_content.length > MAX_FILE_SIZE then
    (.error (unexpectedDlPrefix ++ declaredOversizeMsg), ev ++ [.actualSizeRejected])
  else if !is_valid_extension filename then
    (.error (unexpectedDlPrefix ++ "Invalid file type. Allowed types: " ++
      joinComma ALLOWED_EXTENSIONS), ev ++ [.extensionRejected])
  else (.ok (file_content, filename), ev ++ [.returnedOk])

/-- `URLDownloader.download_file`.  `netResult` models the outcome of
`await client.get(url)`: on success the response body has been fully
transferred before the function regains control (non-streaming GET), which is
why `bodyReceived` is the first event of every success-response path —
in particular it precedes the declared content-length check. -/
def download_file (netResult : Except HttpFailure HttpResponse) (url : String) :
    Except String (List Nat × String) × List DlEvent :=
  match netResult with
  | .error (.statusError code text) =>
    (.error ("Failed to download file: HTTP " ++ toString code ++ " - " ++ text),
     [.requestFailed])
  | .error .timeout =>
    (.error ("Request timed out after 30.0 seconds"), [.requestFailed])
  | .error (.requestError m) =>
    (.error ("Failed to download file: " ++ m), [.requestFailed])
  | .ok resp =>
    let ev := [DlEvent.bodyReceived]
    let filename := extract_filename url resp.headers
    match headerGet resp.headers ("content-length") with
    | some cl =>
      if !cl.isEmpty then
        match pyInt cl with
        | none => (.error (unexpectedDlPrefix ++ "invalid content-length"), ev)
        | some n =>
          if n > (MAX_FILE_SIZE : Int) then
            (.error (unexpectedDlPrefix ++ declaredOversizeMsg),
             ev ++ [.declaredSizeRejected])
          else downloadRest resp filename ev
      else downloadRest resp filename ev
    | none => downloadRest resp filename ev

/-! ### Request handlers (app/main.py) -/

/-- Events observable from a request handler: which collaborator services it
invokes.  No handler in `main.py` ever calls `URLDownloader.download_file`
(the downloader and the URL request models exist but are not wired to any
endpoint), so `calledDownloader` is never emitted. -/
inductive HEvent where
  | calledModel : HEvent
  | calledDownloader : HEvent
deriving DecidableEq

/-- An uploaded multipart file. -/
structure UploadedFile where
  filename : String
  content : List Nat
deriving DecidableEq

def notConfiguredMsg : String :=
  "Gemini API is not configured. Please set GEMINI_API_KEY in environment variables."

def invalidTypeMsg : String :=
  "Invalid file type. Allowed types: " ++ joinComma ALLOWED_EXTENSIONS

def oversizeUploadMsg : String :=
  "File size exceeds maximum allowed size of 10.0MB"

def insufficientTextMsg : String :=
  "Could not extract sufficient text from the resume file. " ++
    "Please ensure the file is not corrupted."

def jobTooShortMsg : String :=
  "Job description is too short. Please provide a detailed job description."

/-- `POST /resume_ats_score` handler body (`resume_ats_score` in main.py):
configuration check, extension check, size check, text extraction, minimum
length check, then the model call; model errors surface as HTTP 500.
Result: HTTP error `(status, detail)` or the response payload. -/
def resume_ats_score (configured : Bool)
    (pdfOr docxOr : Except String (List String))
    (oracle : String → Except String String) (st : GeminiService)
    (file : UploadedFile) :
    Except (Nat × String) (List (String × Json)) × List HEvent :=
  if !configured then (.error (500, notConfiguredMsg), [])
  else if !is_valid_extension file.filename then (.error (400, invalidTypeMsg), [])
  else if file.content.length > MAX_FILE_SIZE then (.error (400, oversizeUploadMsg), [])
  else
    match extract_text pdfOr docxOr file.filename with
    | .error e => (.error (400, e), [])
    | .ok resume_text =>
      if resume_text.isEmpty || (pyStrip resume_text).length < 50 then
        (.error (400, insufficientTextMsg), [])
      else
        match analyze_resume_for_ats oracle st with
        | (.error e, _, _) =>
          (.error (500, "Error analyzing resume: " ++ e), [.calledModel])
        | (.ok d, _, _) =>
          (.ok (d ++ [("file_type", .str (get_file_type file.filename))]),
           [.calledModel])

/-- `POST /cover_letter_generator` handler body (`cover_letter_generator` in
main.py): same pipeline, plus the job-description length check between the
resume-text check and the model call; falsy metadata fields map to `None` in
the response. -/
def cover_letter_generator (configured : Bool)
    (pdfOr docxOr : Except String (List String))
    (oracle : String → Except String String) (st : GeminiService)
    (job_description : String) (file : UploadedFile) :
    Except (Nat × String) (List (String × Json)) × List HEvent :=
  if !configured then (.error (500, notConfiguredMsg), [])
  else if !is_valid_extension file.filename then (.error (400, invalidTypeMsg), [])
  else if file.content.length > MAX_FILE_SIZE then (.error (400, oversizeUploadMsg), [])
  else
    match extract_text pdfOr docxOr file.filename with
    | .error e => (.error (400, e), [])
    | .ok resume_text =>
      if resume_text.isEmpty || (pyStrip resume_text).length < 50 then
        (.error (400, insufficientTextMsg), [])
      else if job_description.isEmpty || (pyStrip job_description).length < 30 then
        (.error (400, jobTooShortMsg), [])
      else
        match generate_cover_letter oracle st with
        | (.error e, _, _) =>
          (.error (500, "Error generating cover letter: " ++ e), [.calledModel])
        | (.ok d, _, _) =>
          (.ok [("cover_letter", (pyGetListD d ("cover_letter"))),
                ("model_used", (pyGetListD d ("model_used"))),
                ("job_title", pyOrNull (d.lookup ("job_title"))),
                ("company_name", pyOrNull (d.lookup ("company_name"))),
                ("notes", pyOrNull (d.lookup ("notes")))],
           [.calledModel])
where
  pyGetListD (d : List (String × Json)) (k : String) : Json :=
    (d.lookup k).getD .null

/-- `POST /ats_resume_generator` handler body (`ats_resume_generator` in
main.py). -/
def ats_resume_generator (configured : Bool)
    (pdfOr docxOr : Except String (List String))
    (oracle : String → Except String String) (st : GeminiService)
    (file : UploadedFile) :
    Except (Nat × String) (List (String × Json)) × List HEvent :=
  if !configured then (.error (500, notConfiguredMsg), [])
  else if !is_valid_extension file.filename then (.error (400, invalidTypeMsg), [])
  else if file.content.length > MAX_FILE_SIZE then (.error (400, oversizeUploadMsg), [])
  else
    match extract_text pdfOr docxOr file.filename with
    | .error e => (.error (400, e), [])
    | .ok resume_text =>
      if resume_text.isEmpty || (pyStrip resume_text).length < 50 then
        (.error (400, insufficientTextMsg), [])
      else
        match generate_ats_optimized_resume oracle st with
        | (.error e, _, _) =>
          (.error (500, "Error regenerating resume: " ++ e), [.calledModel])
        | (.ok d, _, _) =>
          (.ok [("regenerated_resume", (d.lookup ("regenerated_resume")).getD .null),
                ("model_used", (d.lookup ("model_used")).getD .null),
                ("notes", pyOrNull (d.lookup ("notes")))],
           [.calledModel])

/-- What a request to one of the generation endpoints can carry: an uploaded
multipart file and/or a JSON body with a `resume_url` (the latter matches the
unused `ResumeURLRequest` model in app/models/request_models.py). -/
structure IncomingRequest where
  filePart : Option UploadedFile
  resumeUrlBody : Option String
deriving DecidableEq

def missingFileDetail : String := "Field required: file"

/-- Endpoint dispatch for `POST /resume_ats_score`.  The declared signature
is `file: UploadFile = File(...)`: a required multipart file.  A request
without it — in particular a JSON body carrying only `resume_url` — is
rejected by FastAPI request validation (HTTP 422) before the handler runs;
the JSON body is not a declared parameter and is ignored otherwise. -/
def resume_ats_score_endpoint (configured : Bool)
    (pdfOr docxOr : Except String (List String))
    (oracle : String → Except String String) (st : GeminiService)
    (req : IncomingRequest) :
    Except (Nat × String) (List (String × Json)) × List HEvent :=
  match req.filePart with
  | none => (.error (422, missingFileDetail), [])
  | some f => resume_ats_score configured pdfOr docxOr oracle st f

/-- Endpoint dispatch for `POST /cover_letter_generator` (required form field
`job_description` and required file). -/
def cover_letter_generator_endpoint (configured : Bool)
    (pdfOr docxOr : Except String (List String))
    (oracle : String → Except String String) (st : GeminiService)
    (jobPart : Option String) (req : IncomingRequest) :
    Except (Nat × String) (List (String × Json)) × List HEvent :=
  match req.filePart, jobPart with
  | none, _ => (.error (422, missingFileDetail), [])
  | some _, none => (.error (422, "Field required: job_description"), [])
  | some f, some jd => cover_letter_generator configured pdfOr docxOr oracle st jd f

/-- Endpoint dispatch for `POST /ats_resume_generator`. -/
def ats_resume_generator_endpoint (configured : Bool)
    (pdfOr docxOr : Except String (List String))
    (oracle : String → Except String String) (st : GeminiService)
    (req : IncomingRequest) :
    Except (Nat × String) (List (String × Json)) × List HEvent :=
  match req.filePart with
  | none => (.error (422, missingFileDetail), [])
  | some f => ats_resume_generator configured pdfOr docxOr oracle st f

/-! ### Derived notions used by the theorems -/

/-- Well-formedness of the service state: the current index addresses the
roster and `self.model` is the model at that index.  Holds after `__init__`
and is preserved by every operation. -/
def WFService (st : GeminiService) : Prop :=
  st.current_model_index < st.model_names.length ∧
    st.model = st.model_names.getD st.current_model_index ""

/-- The sequence of models the fallback loop submits to, in order: the
currently selected `self.model` first (loop index 0 never reassigns it),
then the roster entries from index 1 on. -/
def candidateSeq (st : GeminiService) : List String :=
  match st.model_names with
  | [] => []
  | _ :: rest => st.model :: rest

/-- Prefix of a candidate sequence up to and including the first model whose
remote call succeeds (the whole sequence when every call raises). -/
def attemptsUntilSuccess (oracle : String → Except String String) :
    List String → List String
  | [] => []
  | m :: rest =>
    match oracle m with
    | .ok _ => [m]
    | .error _ => m :: attemptsUntilSuccess oracle rest

/-! ### Theorems -/

/-- C9: a successfully constructed client always holds a non-empty roster;
when the availability listing succeeds, the roster is the preferred list
filtered by availability (an order-preserving `List.filter`), falling back to
the first five available identifiers when that filter is empty, and
construction fails when nothing is available at all. -/
theorem roster_construction_invariant :
    (∀ listing st, geminiInit listing = .ok st → st.model_names ≠ []) ∧
    (∀ models,
      (preferredModels.filter (fun n => n ∈ availableNames models) ≠ [] →
        geminiInit (.ok models) =
          .ok ⟨preferredModels.filter (fun n => n ∈ availableNames models), 0,
               (preferredModels.filter (fun n => n ∈ availableNames models)).headD ""⟩) ∧
      (preferredModels.filter (fun n => n ∈ availableNames models) = [] →
        availableNames models ≠ [] →
        geminiInit (.ok models) =
          .ok ⟨(availableNames models).take 5, 0,
               ((availableNames models).take 5).headD ""⟩) ∧
      (availableNames models = [] →
        geminiInit (.ok models) = .error noModelsMsg)) := by
  constructor
  · intro listing st h
    unfold geminiInit at h
    by_cases hn : (computeRoster listing).isEmpty
    · simp [hn] at h
    · simp [hn] at h
      rw [← h]
      simpa using hn
  · intro models
    refine ⟨?_, ?_, ?_⟩
    · intro hne
      have hf : (preferredModels.filter (fun n => n ∈ availableNames models)).isEmpty = false := by
        simpa using hne
      unfold geminiInit computeRoster
      simp [hf]
    · intro hemp hav
      have hf : (preferredModels.filter (fun n => n ∈ availableNames models)).isEmpty = true := by
        simpa using hemp
      have hav' : (availableNames models).isEmpty = false := by
        cases hx : availableNames models with
        | nil => exact absurd hx hav
        | cons a rest => simp [hx]
      have htake : ((availableNames models).take 5).isEmpty = false := by
        cases hx : availableNames models with
        | nil => exact absurd hx hav
        | cons a rest => simp [hx]
      unfold geminiInit computeRoster
      simp [hf, hav', htake]
    · intro hav
      have hf : preferredModels.filter (fun n => n ∈ availableNames models) = [] := by
        rw [hav]
        simp
      unfold geminiInit computeRoster
      simp [hav, hf]

/-- C9 witness: a listing offering one flash model with `generateContent`
yields the singleton roster, and the client is constructed. -/
theorem roster_construction_invariant_witness :
    geminiInit (.ok [⟨"models/gemini-2.5-flash", ["generateContent", "countTokens"]⟩]) =
      .ok ⟨["gemini-2.5-flash"], 0, "gemini-2.5-flash"⟩ := by
  have h := (roster_construction_invariant.2
    [⟨"models/gemini-2.5-flash", ["generateContent", "countTokens"]⟩]).1 (by decide)
  rw [h]
  decide

theorem tryModelsGo_cons_ok (oracle : String → Except String String)
    (names : List String) (ctx m : String) (rest : List String) (i : Nat)
    (st : GeminiService) (attempts : List String) (txt : String)
    (h : oracle m = .ok txt) :
    tryModelsGo oracle names ctx (m :: rest) i st attempts =
      (.ok txt, (if i = 0 then st else { st with current_model_index := i, model := m }),
       attempts ++ [m]) := by
  unfold tryModelsGo
  rw [h]

theorem tryModelsGo_cons_err_last (oracle : String → Except String String)
    (names : List String) (ctx m : String) (i : Nat)
    (st : GeminiService) (attempts : List String) (e : String)
    (h : oracle m = .error e) :
    tryModelsGo oracle names ctx [m] i st attempts =
      (.error (triedAllMsg ctx e names),
       (if i = 0 then st else { st with current_model_index := i, model := m }),
       attempts ++ [m]) := by
  unfold tryModelsGo
  rw [h]

theorem tryModelsGo_cons_err_more (oracle : String → Except String String)
    (names : List String) (ctx m r : String) (rs : List String) (i : Nat)
    (st : GeminiService) (attempts : List String) (e : String)
    (h : oracle m = .error e) :
    tryModelsGo oracle names ctx (m :: r :: rs) i st attempts =
      tryModelsGo oracle names ctx (r :: rs) (i + 1)
        (if i = 0 then st else { st with current_model_index := i, model := m })
        (attempts ++ [m]) := by
  conv_lhs => unfold tryModelsGo
  rw [h]

theorem tryModelsGo_allfail (oracle : String → Except String String)
    (names : List String) (ctx : String) :
    ∀ (seq : List String) (i : Nat) (st : GeminiService) (attempts : List String),
      seq ≠ [] → (∀ m ∈ seq, ∃ e, oracle m = .error e) →
      ∃ e, (tryModelsGo oracle names ctx seq i st attempts).1 =
        .error (triedAllMsg ctx e names) := by
  intro seq
  induction seq with
  | nil => intro i st attempts h; exact absurd rfl h
  | cons m rest ih =>
    intro i st attempts _ hall
    obtain ⟨e, he⟩ := hall m (by simp)
    cases rest with
    | nil =>
      refine ⟨e, ?_⟩
      rw [tryModelsGo_cons_err_last oracle names ctx m i st attempts e he]
    | cons r rs =>
      obtain ⟨e2, he2⟩ := ih (i + 1)
        (if i = 0 then st else { st with current_model_index := i, model := m })
        (attempts ++ [m]) (by simp)
        (fun m' hm' => hall m' (List.mem_cons_of_mem _ hm'))
      refine ⟨e2, ?_⟩
      rw [tryModelsGo_cons_err_more oracle names ctx m r rs i st attempts e he]
      exact he2

theorem tryModelsGo_ok (oracle : String → Except String String)
    (names : List String) (ctx : String) :
    ∀ (seq : List String) (i : Nat) (st : GeminiService) (attempts : List String),
      st.model_names = names →
      st.current_model_index < names.length →
      st.model = names.getD st.current_model_index "" →
      (∀ k, seq.get? k = if i + k = 0 then some st.model else names.get? (i + k)) →
      i + seq.length = names.length →
      ∀ txt st' att,
        tryModelsGo oracle names ctx seq i st attempts = (.ok txt, st', att) →
        st'.model_names = names ∧
        st'.current_model_index < names.length ∧
        st'.model = names.getD st'.current_model_index "" ∧
        oracle st'.model = .ok txt ∧
        att.getLast? = some st'.model := by
  intro seq
  induction seq with
  | nil =>
    intro i st attempts _ _ _ _ _ txt st' att heq
    unfold tryModelsGo at heq
    rw [Prod.mk.injEq] at heq
    exact absurd heq.1 (by simp)
  | cons m rest ih =>
    intro i st attempts hnames hlt hmodel hseq hlen txt st' att heq
    by_cases hi : i = 0
    · subst hi
      have hmeq : st.model = m := by
        have h0 := hseq 0
        rw [if_pos rfl] at h0
        exact (Option.some.injEq .. ▸ h0).symm
      cases ho : oracle m with
      | ok txt' =>
        rw [tryModelsGo_cons_ok oracle names ctx m rest 0 st attempts txt' ho,
          if_pos rfl, Prod.mk.injEq, Prod.mk.injEq] at heq
        obtain ⟨h1, h2, h3⟩ := heq
        rw [← h2]
        refine ⟨hnames, hlt, hmodel, ?_, ?_⟩
        · rw [hmeq, ho, h1]
        · rw [← h3, List.getLast?_concat, hmeq]
      | error e =>
        cases rest with
        | nil =>
          rw [tryModelsGo_cons_err_last oracle names ctx m 0 st attempts e ho,
            Prod.mk.injEq] at heq
          exact absurd heq.1 (by simp)
        | cons r rs =>
          rw [tryModelsGo_cons_err_more oracle names ctx m r rs 0 st attempts e ho,
            if_pos rfl] at heq
          refine ih 1 st (attempts ++ [m]) hnames hlt hmodel ?_ ?_ txt st' att heq
          · intro k
            have h := hseq (k + 1)
            rw [if_neg (by omega)] at h
            rw [if_neg (by omega)]
            have harith : 0 + (k + 1) = 1 + k := by omega
            rw [harith] at h
            exact h
          · simp only [List.length_cons] at hlen ⊢
            omega
    · have hm0 : names[i]? = some m := by
        have h0 := hseq 0
        rw [if_neg (by omega)] at h0
        simpa using h0.symm
      have hilt : i < names.length := by
        simp only [List.length_cons] at hlen
        omega
      have hmgetD : m = names.getD i "" := by
        rw [List.getD_eq_getElem?_getD, hm0]
        rfl
      cases ho : oracle m with
      | ok txt' =>
        rw [tryModelsGo_cons_ok oracle names ctx m rest i st attempts txt' ho,
          if_neg hi, Prod.mk.injEq, Prod.mk.injEq] at heq
        obtain ⟨h1, h2, h3⟩ := heq
        rw [← h2]
        refine ⟨hnames, hilt, hmgetD, ?_, ?_⟩
        · rw [ho, h1]
        · rw [← h3, List.getLast?_concat]
      | error e =>
        cases rest with
        | nil =>
          rw [tryModelsGo_cons_err_last oracle names ctx m i st attempts e ho,
            Prod.mk.injEq] at heq
          exact absurd heq.1 (by simp)
        | cons r rs =>
          rw [tryModelsGo_cons_err_more oracle names ctx m r rs i st attempts e ho,
            if_neg hi] at heq
          refine ih (i + 1) { st with current_model_index := i, model := m }
            (attempts ++ [m]) hnames hilt hmgetD ?_ ?_ txt st' att heq
          · intro k
            have h := hseq (k + 1)
            rw [if_neg (by omega)] at h
            rw [if_neg (by omega)]
            have harith : i + (k + 1) = i + 1 + k := by omega
            rw [harith] at h
            exact h
          · simp only [List.length_cons] at hlen ⊢
            omega

theorem tryModelsGo_attempts (oracle : String → Except String String)
    (names : List String) (ctx : String) :
    ∀ (seq : List String) (i : Nat) (st : GeminiService) (attempts : List String),
      (tryModelsGo oracle names ctx seq i st attempts).2.2 =
        attempts ++ attemptsUntilSuccess oracle seq := by
  intro seq
  induction seq with
  | nil => intro i st attempts; simp [tryModelsGo, attemptsUntilSuccess]
  | cons m rest ih =>
    intro i st attempts
    cases ho : oracle m with
    | ok txt =>
      rw [tryModelsGo_cons_ok oracle names ctx m rest i st attempts txt ho]
      unfold attemptsUntilSuccess
      rw [ho]
    | error e =>
      cases rest with
      | nil =>
        rw [tryModelsGo_cons_err_last oracle names ctx m i st attempts e ho]
        unfold attemptsUntilSuccess
        rw [ho]
        rfl
      | cons r rs =>
        rw [tryModelsGo_cons_err_more oracle names ctx m r rs i st attempts e ho, ih]
        conv_rhs => unfold attemptsUntilSuccess
        rw [ho]
        simp

theorem tryModels_attempts (oracle : String → Except String String)
    (ctx : String) (st : GeminiService) :
    (tryModels oracle ctx st).2.2 = attemptsUntilSuccess oracle (candidateSeq st) := by
  unfold tryModels candidateSeq
  cases hn : st.model_names with
  | nil => simp [attemptsUntilSuccess]
  | cons n0 rest => simpa using tryModelsGo_attempts oracle (n0 :: rest) ctx (st.model :: rest) 0 st []

theorem tryModels_allfail (oracle : String → Except String String) (ctx : String)
    (st : GeminiService) (hne : st.model_names ≠ [])
    (hall : ∀ m ∈ candidateSeq st, ∃ e, oracle m = .error e) :
    ∃ e, (tryModels oracle ctx st).1 = .error (triedAllMsg ctx e st.model_names) := by
  unfold tryModels
  cases hn : st.model_names with
  | nil => exact absurd hn hne
  | cons n0 rest =>
    have hcand : candidateSeq st = st.model :: rest := by
      unfold candidateSeq
      rw [hn]
    refine tryModelsGo_allfail oracle (n0 :: rest) ctx (st.model :: rest) 0 st []
      (by simp) ?_
    rw [← hcand]
    exact hall

theorem tryModels_ok (oracle : String → Except String String) (ctx : String)
    (st : GeminiService) (hwf : WFService st) :
    ∀ txt st' att, tryModels oracle ctx st = (.ok txt, st', att) →
      st'.model_names = st.model_names ∧ WFService st' ∧
      oracle st'.model = .ok txt ∧
      att = attemptsUntilSuccess oracle (candidateSeq st) ∧
      att.getLast? = some st'.model := by
  intro txt st' att heq
  have hatt : att = attemptsUntilSuccess oracle (candidateSeq st) := by
    have h := tryModels_attempts oracle ctx st
    rw [heq] at h
    exact h
  unfold tryModels at heq
  cases hn : st.model_names with
  | nil =>
    rw [hn] at heq
    rw [Prod.mk.injEq] at heq
    exact absurd heq.1 (by simp)
  | cons n0 rest =>
    rw [hn] at heq
    have hres := tryModelsGo_ok oracle (n0 :: rest) ctx (st.model :: rest) 0 st [] hn
      (hn ▸ hwf.1) (hn ▸ hwf.2) ?_ ?_ txt st' att heq
    · refine ⟨by rw [hres.1], ?_, hres.2.2.2.1, hatt, hres.2.2.2.2⟩
      unfold WFService
      rw [hres.1]
      exact ⟨hres.2.1, hres.2.2.1⟩
    · intro k
      cases k with
      | zero => simp
      | succ k => simp
    · simp

theorem joinComma_infix (l : List String) (m : String) (hm : m ∈ l) :
    ∃ s t, (joinComma l).data = s ++ m.data ++ t := by
  induction l with
  | nil => simp at hm
  | cons x xs ih =>
    cases xs with
    | nil =>
      have hx : m = x := by simpa using hm
      exact ⟨[], [], by simp [joinComma, hx]⟩
    | cons y ys =>
      rcases List.mem_cons.mp hm with h | h
      · exact ⟨[], (", " ++ joinComma (y :: ys)).data, by simp [joinComma, h]⟩
      · obtain ⟨s, t, hst⟩ := ih h
        refine ⟨(x ++ ", ").data ++ s, t, ?_⟩
        show (x ++ ", " ++ joinComma (y :: ys)).data = (x ++ ", ").data ++ s ++ m.data ++ t
        simp only [String.data_append, List.append_assoc]
        rw [hst]
        simp [List.append_assoc]

theorem triedAllMsg_infix (ctx e : String) (names : List String) (m : String)
    (hm : m ∈ names) :
    ∃ s t, (triedAllMsg ctx e names).data = s ++ m.data ++ t := by
  obtain ⟨s, t, hst⟩ := joinComma_infix names m hm
  refine ⟨(ctx ++ e ++ ". Tried models: ").data ++ s,
    t ++ (". Please check your API key permissions." : String).data, ?_⟩
  unfold triedAllMsg
  simp only [String.data_append, List.append_assoc]
  rw [show (joinComma names).data = s ++ (m.data ++ t) by simpa using hst]
  simp

/-- C3 amended: for each of the three operations, the models are attempted in
the order `candidateSeq st` — the client's currently selected model first
(the loop body never reassigns `self.model` at index 0), then the roster
entries from index 1 on — advancing exactly when a call raises and stopping
at the first success; on a freshly constructed client this sequence is
exactly the roster; when every candidate raises, the operation fails with an
error message that contains every roster identifier. -/
theorem fallback_attempt_order :
    (∀ oracle st,
      (analyze_resume_for_ats oracle st).2.2 =
        attemptsUntilSuccess oracle (candidateSeq st) ∧
      (generate_cover_letter oracle st).2.2 =
        attemptsUntilSuccess oracle (candidateSeq st) ∧
      (generate_ats_optimized_resume oracle st).2.2 =
        attemptsUntilSuccess oracle (candidateSeq st)) ∧
    (∀ listing st, geminiInit listing = .ok st →
      candidateSeq st = st.model_names) ∧
    (∀ oracle ctx st, st.model_names ≠ [] →
      (∀ m ∈ candidateSeq st, ∃ e, oracle m = .error e) →
      ∃ e, (tryModels oracle ctx st).1 =
          .error (triedAllMsg ctx e st.model_names) ∧
        ∀ name ∈ st.model_names, ∃ s t,
          (triedAllMsg ctx e st.model_names).data = s ++ name.data ++ t) := by
  refine ⟨?_, ?_, ?_⟩
  · intro oracle st
    refine ⟨?_, ?_, ?_⟩
    · unfold analyze_resume_for_ats
      rcases htm : tryModels oracle ("Error calling Gemini API: ") st with ⟨res, st', att⟩
      have := tryModels_attempts oracle ("Error calling Gemini API: ") st
      rw [htm] at this
      cases res <;> simpa using this
    · unfold generate_cover_letter
      rcases htm : tryModels oracle ("Error calling Gemini API for cover letter: ") st
        with ⟨res, st', att⟩
      have := tryModels_attempts oracle ("Error calling Gemini API for cover letter: ") st
      rw [htm] at this
      cases res <;> simpa using this
    · unfold generate_ats_optimized_resume
      rcases htm : tryModels oracle ("Error calling Gemini API for ATS resume generation: ") st
        with ⟨res, st', att⟩
      have := tryModels_attempts oracle
        ("Error calling Gemini API for ATS resume generation: ") st
      rw [htm] at this
      cases res <;> simpa using this
  · intro listing st h
    unfold geminiInit at h
    by_cases hn : (computeRoster listing).isEmpty
    · simp [hn] at h
    · simp [hn] at h
      rw [← h]
      unfold candidateSeq
      cases hr : computeRoster listing with
      | nil => exact absurd (by rw [hr]; rfl) hn
      | cons n0 rest => simp [hr]
  · intro oracle ctx st hne hall
    obtain ⟨e, he⟩ := tryModels_allfail oracle ctx st hne hall
    exact ⟨e, he, fun name hname => triedAllMsg_infix ctx e st.model_names name hname⟩

/-- C3 amended, witness: on a freshly constructed client the candidate
sequence is the roster itself, and when every call raises the error message
lists all five identifiers. -/
theorem fallback_attempt_order_witness :
    candidateSeq ⟨preferredModels, 0, "gemini-2.5-pro"⟩ =
      GeminiService.model_names ⟨preferredModels, 0, "gemini-2.5-pro"⟩ ∧
    (∃ e, (tryModels (fun _ => .error ("quota")) ("Error calling Gemini API: ")
        ⟨preferredModels, 0, "gemini-2.5-pro"⟩).1 =
        .error (triedAllMsg ("Error calling Gemini API: ") e
          (GeminiService.model_names ⟨preferredModels, 0, "gemini-2.5-pro"⟩)) ∧
      ∀ name ∈ GeminiService.model_names
          (⟨preferredModels, 0, "gemini-2.5-pro"⟩ : GeminiService), ∃ s t,
        (triedAllMsg ("Error calling Gemini API: ") e
          (GeminiService.model_names ⟨preferredModels, 0, "gemini-2.5-pro"⟩)).data =
          s ++ name.data ++ t) :=
  ⟨fallback_attempt_order.2.1 (.error ()) ⟨preferredModels, 0, "gemini-2.5-pro"⟩ (by decide),
   fallback_attempt_order.2.2 (fun _ => .error ("quota")) ("Error calling Gemini API: ")
     ⟨preferredModels, 0, "gemini-2.5-pro"⟩ (by decide)
     (fun m _ => ⟨"quota", rfl⟩)⟩

def c3oracleFirstCall : String → Except String String :=
  fun m => if m = "gemini-2.5-pro" then .error ("quota exceeded")
    else .ok ("\x7b\"score\": 50\x7d")

def c3oracleSecondCall : String → Except String String :=
  fun m => if m = "gemini-2.5-flash" then .error ("model down")
    else .ok ("\x7b\"score\": 50\x7d")

/-- C3 counterexample: after a first invocation in which the first roster
entry raised and the second succeeded, the service keeps index 1, and the
next invocation attempts `gemini-2.5-flash` twice and never attempts the
first roster entry `gemini-2.5-pro` — its attempt trace is not a prefix of
the roster, refuting "attempted starting from the first entry and strictly
in roster order" for that invocation. -/
theorem fallback_not_from_first_roster_entry :
    geminiInit (.error ()) = .ok ⟨preferredModels, 0, "gemini-2.5-pro"⟩ ∧
    (analyze_resume_for_ats c3oracleFirstCall ⟨preferredModels, 0, "gemini-2.5-pro"⟩).2.1 =
      ⟨preferredModels, 1, "gemini-2.5-flash"⟩ ∧
    (analyze_resume_for_ats c3oracleSecondCall ⟨preferredModels, 1, "gemini-2.5-flash"⟩).2.2 =
      ["gemini-2.5-flash", "gemini-2.5-flash", "gemini-pro-latest"] ∧
    List.isPrefixOf ["gemini-2.5-flash", "gemini-2.5-flash", "gemini-pro-latest"]
      preferredModels = false ∧
    ("gemini-2.5-pro" ∈ (["gemini-2.5-flash", "gemini-2.5-flash",
      "gemini-pro-latest"] : List String)) = False := by
  refine ⟨by decide, by decide, by decide, by decide, by decide⟩

theorem processCoverResponse_shape (raw : String) (names : List String) (idx : Nat)
    (d : List (String × Json)) (heq : processCoverResponse raw names idx = .ok d) :
    ∃ c jt cn nt, d =
      [("cover_letter", Json.str c),
       ("model_used", Json.str (names.getD idx "")),
       ("job_title", jt), ("company_name", cn), ("notes", nt)] := by
  simp only [processCoverResponse] at heq
  split at heq
  · exact absurd heq (by simp)
  · split at heq
    · split at heq
      · exact absurd heq (by simp)
      · rw [Except.ok.injEq] at heq
        exact ⟨_, _, _, _, heq.symm⟩
    · exact absurd heq (by simp)
  · exact absurd heq (by simp)

theorem processResumeResponse_shape (raw : String) (names : List String) (idx : Nat)
    (d : List (String × Json)) (heq : processResumeResponse raw names idx = .ok d) :
    ∃ rr nt, d =
      [("regenerated_resume", Json.str rr),
       ("model_used", Json.str (names.getD idx "")),
       ("notes", nt)] := by
  simp only [processResumeResponse] at heq
  split at heq
  · rw [Except.ok.injEq] at heq
    exact ⟨_, _, heq.symm⟩
  · split at heq
    · split at heq
      · exact absurd heq (by simp)
      · rw [Except.ok.injEq] at heq
        exact ⟨_, _, heq.symm⟩
    · exact absurd heq (by simp)
  · exact absurd heq (by simp)

theorem processScoreResponse_shape (raw : String)
    (d : List (String × Json)) (heq : processScoreResponse raw = .ok d) :
    ∃ sc fb sg wk rc, d =
      [("score", sc), ("feedback", fb), ("strengths", sg),
       ("weaknesses", wk), ("recommendations", rc)] := by
  simp only [processScoreResponse] at heq
  split at heq
  · exact absurd heq (by simp)
  · split at heq
    · exact absurd heq (by simp)
    · rw [Except.ok.injEq] at heq
      exact ⟨_, _, _, _, _, heq.symm⟩
  · exact absurd heq (by simp)

/-- C4 amended: for the cover-letter and resume-regeneration operations, a
successful invocation returns a dict whose `model_used` entry is the
identifier of the model whose remote call succeeded (the last model
attempted, `self.model_names[self.current_model_index]` = the selected
model); the analyze-for-score result dict contains no `model_used` entry at
all. -/
theorem model_used_reports_succeeded_model :
    (∀ oracle st, WFService st →
      ∀ d st' att, generate_cover_letter oracle st = (.ok d, st', att) →
        d.lookup ("model_used") = some (.str st'.model) ∧
        (∃ raw, oracle st'.model = .ok raw) ∧
        att.getLast? = some st'.model) ∧
    (∀ oracle st, WFService st →
      ∀ d st' att, generate_ats_optimized_resume oracle st = (.ok d, st', att) →
        d.lookup ("model_used") = some (.str st'.model) ∧
        (∃ raw, oracle st'.model = .ok raw) ∧
        att.getLast? = some st'.model) ∧
    (∀ oracle st d st' att, analyze_resume_for_ats oracle st = (.ok d, st', att) →
      d.lookup ("model_used") = none) := by
  refine ⟨?_, ?_, ?_⟩
  · intro oracle st hwf d st' att heq
    unfold generate_cover_letter at heq
    split at heq
    next e st2 att2 htm =>
      rw [Prod.mk.injEq, Prod.mk.injEq] at heq
      exact absurd heq.1 (by simp)
    next raw st2 att2 htm =>
      rw [Prod.mk.injEq, Prod.mk.injEq] at heq
      obtain ⟨h1, h2, h3⟩ := heq
      subst h2
      subst h3
      obtain ⟨hn, hwf', hok, hatts, hlast⟩ :=
        tryModels_ok oracle ("Error calling Gemini API for cover letter: ") st hwf raw st2 att2 htm
      obtain ⟨c, jt, cn, nt, hd⟩ :=
        processCoverResponse_shape raw st2.model_names st2.current_model_index d h1
      refine ⟨?_, ⟨raw, hok⟩, hlast⟩
      rw [hd]
      show some (Json.str (st2.model_names.getD st2.current_model_index "")) =
        some (Json.str st2.model)
      rw [← hwf'.2]
  · intro oracle st hwf d st' att heq
    unfold generate_ats_optimized_resume at heq
    split at heq
    next e st2 att2 htm =>
      rw [Prod.mk.injEq, Prod.mk.injEq] at heq
      exact absurd heq.1 (by simp)
    next raw st2 att2 htm =>
      rw [Prod.mk.injEq, Prod.mk.injEq] at heq
      obtain ⟨h1, h2, h3⟩ := heq
      subst h2
      subst h3
      obtain ⟨hn, hwf', hok, hatts, hlast⟩ :=
        tryModels_ok oracle ("Error calling Gemini API for ATS resume generation: ")
          st hwf raw st2 att2 htm
      obtain ⟨rr, nt, hd⟩ :=
        processResumeResponse_shape raw st2.model_names st2.current_model_index d h1
      refine ⟨?_, ⟨raw, hok⟩, hlast⟩
      rw [hd]
      show some (Json.str (st2.model_names.getD st2.current_model_index "")) =
        some (Json.str st2.model)
      rw [← hwf'.2]
  · intro oracle st d st' att heq
    unfold analyze_resume_for_ats at heq
    split at heq
    next e st2 att2 htm =>
      rw [Prod.mk.injEq, Prod.mk.injEq] at heq
      exact absurd heq.1 (by simp)
    next raw st2 att2 htm =>
      rw [Prod.mk.injEq, Prod.mk.injEq] at heq
      obtain ⟨h1, _, _⟩ := heq
      obtain ⟨sc, fb, sg, wk, rc, hd⟩ := processScoreResponse_shape raw d h1
      rw [hd]
      rfl

/-- C4 witness: a cover-letter call that succeeds on the first selected model
returns `model_used = "gemini-2.5-pro"`. -/
theorem model_used_reports_succeeded_model_witness :
    WFService ⟨preferredModels, 0, "gemini-2.5-pro"⟩ ∧
    generate_cover_letter (fun _ => .ok ("\x7b\"cover_letter\": \"Dear Team\"\x7d"))
      ⟨preferredModels, 0, "gemini-2.5-pro"⟩ =
      (.ok [("cover_letter", Json.str ("Dear Team")),
            ("model_used", Json.str ("gemini-2.5-pro")),
            ("job_title", Json.str ("")), ("company_name", Json.str ("")),
            ("notes", Json.str (""))],
       ⟨preferredModels, 0, "gemini-2.5-pro"⟩, ["gemini-2.5-pro"]) ∧
    List.lookup ("model_used")
      [(("cover_letter" : String), Json.str ("Dear Team")),
       ("model_used", Json.str ("gemini-2.5-pro")),
       ("job_title", Json.str ("")), ("company_name", Json.str ("")),
       ("notes", Json.str (""))] = some (Json.str ("gemini-2.5-pro")) := by
  refine ⟨⟨by decide, by decide⟩, by decide, ?_⟩
  exact (model_used_reports_succeeded_model.1
    (fun _ => .ok ("\x7b\"cover_letter\": \"Dear Team\"\x7d"))
    ⟨preferredModels, 0, "gemini-2.5-pro"⟩ ⟨by decide, by decide⟩
    [("cover_letter", Json.str ("Dear Team")),
     ("model_used", Json.str ("gemini-2.5-pro")),
     ("job_title", Json.str ("")), ("company_name", Json.str ("")),
     ("notes", Json.str (""))]
    ⟨preferredModels, 0, "gemini-2.5-pro"⟩ ["gemini-2.5-pro"] (by decide)).1

/-- C4 counterexample: a successful analyze-for-score invocation returns a
dict with no `model_used` entry, refuting the claim for that operation. -/
theorem score_result_lacks_model_used :
    (analyze_resume_for_ats (fun _ => .ok ("\x7b\"score\": 50\x7d"))
      ⟨preferredModels, 0, "gemini-2.5-pro"⟩).1 =
      .ok [("score", Json.num 50), ("feedback", Json.str ("No feedback provided")),
           ("strengths", Json.arr .nil), ("weaknesses", Json.arr .nil),
           ("recommendations", Json.arr .nil)] ∧
    List.lookup ("model_used")
      [(("score" : String), Json.num 50),
       ("feedback", Json.str ("No feedback provided")),
       ("strengths", Json.arr .nil), ("weaknesses", Json.arr .nil),
       ("recommendations", Json.arr .nil)] = none := by
  exact ⟨by decide, by decide⟩

theorem rhe2_nonneg (n : Int) (d : Nat) (hn : 0 ≤ n) : 0 ≤ rhe2 n d := by
  have hf : 0 ≤ Int.fdiv n d := Int.fdiv_nonneg hn (Int.natCast_nonneg d)
  simp only [rhe2]
  split_ifs <;> omega

theorem rhe2_le (n : Int) (d : Nat) (hd : 0 < d) (hb : n ≤ 10000 * d) :
    rhe2 n d ≤ 10000 := by
  have hd' : (0 : Int) < (d : Int) := by exact_mod_cast hd
  have hdz : (d : Int) ≠ 0 := ne_of_gt hd'
  have hfe : Int.fdiv n d = n / d := Int.fdiv_eq_ediv n (le_of_lt hd')
  have hf_le : n / (d : Int) ≤ 10000 := by
    calc n / (d : Int) ≤ (10000 * d) / d := Int.ediv_le_ediv hd' hb
    _ = 10000 := Int.mul_ediv_cancel 10000 hdz
  have hmul_le : n / (d : Int) * d ≤ n := Int.ediv_mul_le n hdz
  simp only [rhe2]
  rw [hfe]
  split_ifs with h1 h2 h3
  · exact hf_le
  · -- 2 * (n - n/d * d) > d > 0, so n/d * d < n ≤ 10000 * d and n/d < 10000
    have hlt : n / (d : Int) * d < n := by omega
    have : n / (d : Int) * d < 10000 * d := lt_of_lt_of_le hlt hb
    have : n / (d : Int) < 10000 := lt_of_mul_lt_mul_right this (le_of_lt hd')
    omega
  · exact hf_le
  · have hlt : n / (d : Int) * d < n := by omega
    have : n / (d : Int) * d < 10000 * d := lt_of_lt_of_le hlt hb
    have : n / (d : Int) < 10000 := lt_of_mul_lt_mul_right this (le_of_lt hd')
    omega

theorem round2_between (q : ℚ) (h0 : 0 ≤ q) (h1 : q ≤ 100) :
    0 ≤ round2 q ∧ round2 q ≤ 100 ∧ round2 q = ((rhe2 (q.num * 100) q.den : ℤ) : ℚ) / 100 := by
  have hdiv : round2 q = ((rhe2 (q.num * 100) q.den : ℤ) : ℚ) / 100 := by
    unfold round2
    rw [Rat.divInt_eq_div]
    norm_num
  have hnum0 : 0 ≤ q.num := Rat.num_nonneg.mpr h0
  have hn : 0 ≤ q.num * 100 := by positivity
  have hdenpos : 0 < q.den := q.den_pos
  have hnumle : q.num ≤ 100 * (q.den : Int) := by
    have hdne : ((q.den : ℚ)) ≠ 0 := by positivity
    have hq : q * (q.den : ℚ) = (q.num : ℚ) := by
      have hnd := Rat.num_div_den q
      calc q * (q.den : ℚ) = (q.num : ℚ) / (q.den : ℚ) * (q.den : ℚ) := by rw [hnd]
      _ = (q.num : ℚ) := div_mul_cancel₀ _ hdne
    have hden0 : (0 : ℚ) ≤ (q.den : ℚ) := by positivity
    have : (q.num : ℚ) ≤ 100 * (q.den : ℚ) := by
      rw [← hq]
      exact mul_le_mul_of_nonneg_right h1 hden0
    exact_mod_cast this
  have hb : q.num * 100 ≤ 10000 * (q.den : Int) := by nlinarith
  have hlo := rhe2_nonneg (q.num * 100) q.den hn
  have hhi := rhe2_le (q.num * 100) q.den hdenpos hb
  refine ⟨?_, ?_, hdiv⟩
  · rw [hdiv]
    positivity
  · rw [hdiv]
    rw [div_le_iff₀ (by norm_num : (0:ℚ) < 100)]
    calc ((rhe2 (q.num * 100) q.den : ℤ) : ℚ) ≤ ((10000 : ℤ) : ℚ) := by exact_mod_cast hhi
    _ = 100 * 100 := by norm_num

theorem pyClamp_between (q : ℚ) : 0 ≤ pyClamp q ∧ pyClamp q ≤ 100 := by
  unfold pyClamp
  constructor
  · exact le_max_left 0 _
  · exact max_le (by norm_num) (min_le_left 100 q)

/-- C6: for every successfully parsed analyze-for-score response, the
returned score is the response's score value coerced by `float()`, clamped
into [0, 100] and rounded (half-to-even) to 2 decimal places; consequently
the score lies in [0, 100] and is an integer multiple of 1/100 (at most two
decimal digits). -/
theorem score_clamped_rounded_bounds :
    ∀ raw fields q,
      json_loads (cleanResponse raw) = some (.obj fields) →
      pyFloat (pyGetD fields ("score") (.num 0)) = some q →
      processScoreResponse raw =
        .ok [("score", .num (round2 (pyClamp q))),
             ("feedback", pyGetD fields ("feedback") (.str "No feedback provided")),
             ("strengths", pyGetD fields ("strengths") (.arr .nil)),
             ("weaknesses", pyGetD fields ("weaknesses") (.arr .nil)),
             ("recommendations", pyGetD fields ("recommendations") (.arr .nil))] ∧
      0 ≤ round2 (pyClamp q) ∧ round2 (pyClamp q) ≤ 100 ∧
      ∃ z : ℤ, round2 (pyClamp q) = (z : ℚ) / 100 := by
  intro raw fields q hj hf
  obtain ⟨hc0, hc1⟩ := pyClamp_between q
  obtain ⟨hr0, hr1, hrz⟩ := round2_between (pyClamp q) hc0 hc1
  refine ⟨?_, hr0, hr1, ⟨rhe2 ((pyClamp q).num * 100) (pyClamp q).den, hrz⟩⟩
  simp only [processScoreResponse, hj, hf]

/-- C6 witness: a parsed response carrying score 101 is clamped to exactly
100. -/
theorem score_clamped_rounded_bounds_witness :
    json_loads (cleanResponse ("\x7b\"score\": 101\x7d")) =
      some (.obj (.cons ("score") (.num 101) .nil)) ∧
    (processScoreResponse ("\x7b\"score\": 101\x7d") =
        .ok [("score", .num (round2 (pyClamp 101))),
             ("feedback", pyGetD (.cons ("score") (.num 101) .nil) ("feedback")
               (.str "No feedback provided")),
             ("strengths", pyGetD (.cons ("score") (.num 101) .nil) ("strengths")
               (.arr .nil)),
             ("weaknesses", pyGetD (.cons ("score") (.num 101) .nil) ("weaknesses")
               (.arr .nil)),
             ("recommendations", pyGetD (.cons ("score") (.num 101) .nil)
               ("recommendations") (.arr .nil))] ∧
      0 ≤ round2 (pyClamp 101) ∧ round2 (pyClamp 101) ≤ 100 ∧
      ∃ z : ℤ, round2 (pyClamp 101) = (z : ℚ) / 100) ∧
    round2 (pyClamp 101) = 100 := by
  refine ⟨by decide, ?_, by decide⟩
  exact score_clamped_rounded_bounds ("\x7b\"score\": 101\x7d")
    (.cons ("score") (.num 101) .nil) 101 (by decide) (by decide)

/-- C10: when the parsed response object has no "score" key, the operation
still succeeds and the returned score is exactly 0. -/
theorem missing_score_defaults_to_zero :
    ∀ raw fields,
      json_loads (cleanResponse raw) = some (.obj fields) →
      fields.find ("score") = none →
      processScoreResponse raw =
        .ok [("score", .num 0),
             ("feedback", pyGetD fields ("feedback") (.str "No feedback provided")),
             ("strengths", pyGetD fields ("strengths") (.arr .nil)),
             ("weaknesses", pyGetD fields ("weaknesses") (.arr .nil)),
             ("recommendations", pyGetD fields ("recommendations") (.arr .nil))] := by
  intro raw fields hj hmiss
  have hget : pyGetD fields ("score") (.num 0) = .num 0 := by
    unfold pyGetD
    rw [hmiss]
    rfl
  have hf : pyFloat (pyGetD fields ("score") (.num 0)) = some 0 := by
    rw [hget]
    rfl
  have h0 : round2 (pyClamp 0) = 0 := by decide
  simp only [processScoreResponse, hj, hf, h0]

/-- C10 witness: a response with feedback but no score yields score 0. -/
theorem missing_score_defaults_to_zero_witness :
    json_loads (cleanResponse ("\x7b\"feedback\": \"good\"\x7d")) =
      some (.obj (.cons ("feedback") (.str ("good")) .nil)) ∧
    JsonPairs.find (.cons ("feedback") (.str ("good")) .nil) ("score") = none ∧
    processScoreResponse ("\x7b\"feedback\": \"good\"\x7d") =
      .ok [("score", .num 0),
           ("feedback", pyGetD (.cons ("feedback") (.str ("good")) .nil) ("feedback")
             (.str "No feedback provided")),
           ("strengths", pyGetD (.cons ("feedback") (.str ("good")) .nil) ("strengths")
             (.arr .nil)),
           ("weaknesses", pyGetD (.cons ("feedback") (.str ("good")) .nil) ("weaknesses")
             (.arr .nil)),
           ("recommendations", pyGetD (.cons ("feedback") (.str ("good")) .nil)
             ("recommendations") (.arr .nil))] := by
  refine ⟨by decide, by decide, ?_⟩
  exact missing_score_defaults_to_zero ("\x7b\"feedback\": \"good\"\x7d")
    (.cons ("feedback") (.str ("good")) .nil) (by decide) (by decide)

/-- C7 amended: when the normalized response text is not valid JSON, the
resume-regeneration operation succeeds and uses the *normalized* (fence-
substituted and trimmed) response text — which equals the raw trimmed text
exactly when the substitution patterns change nothing — as the regenerated
resume, with the fallback note; the score and cover-letter operations
propagate a parse error instead. -/
theorem regen_fallback_uses_normalized_text :
    (∀ raw names idx,
      json_loads (cleanResponseBroken raw) = none →
      processResumeResponse raw names idx =
        .ok [("regenerated_resume", .str (pyStrip (cleanResponseBroken raw))),
             ("model_used", .str (names.getD idx "")),
             ("notes", .str resumeFallbackNote)]) ∧
    (∀ raw, json_loads (cleanResponse raw) = none →
      processScoreResponse raw = .error scoreParseErrMsg) ∧
    (∀ raw names idx, json_loads (cleanResponse raw) = none →
      processCoverResponse raw names idx = .error coverParseErrMsg) := by
  refine ⟨?_, ?_, ?_⟩
  · intro raw names idx hj
    simp only [processResumeResponse, hj]
  · intro raw hj
    simp only [processScoreResponse, hj]
  · intro raw names idx hj
    simp only [processCoverResponse, hj]

/-- C7 amended, witness: a plain-text response falls back to itself as the
regenerated resume, while the score operation rejects the same text. -/
theorem regen_fallback_uses_normalized_text_witness :
    json_loads (cleanResponseBroken ("hello there")) = none ∧
    processResumeResponse ("hello there") preferredModels 0 =
      .ok [("regenerated_resume", .str (pyStrip (cleanResponseBroken ("hello there")))),
           ("model_used", .str (preferredModels.getD 0 "")),
           ("notes", .str resumeFallbackNote)] ∧
    json_loads (cleanResponse ("hello there")) = none ∧
    processScoreResponse ("hello there") = .error scoreParseErrMsg := by
  refine ⟨by decide, ?_, by decide, ?_⟩
  · exact regen_fallback_uses_normalized_text.1 ("hello there") preferredModels 0 (by decide)
  · exact regen_fallback_uses_normalized_text.2.1 ("hello there") (by decide)

/-- C7 counterexample: a response on which the (broken) substitution fires —
it contains three backticks, a backslash and a run of `s` — is altered by
normalization before the fallback, so the returned `regenerated_resume`
(here the single character `\x7b`) is NOT the raw trimmed response text. -/
theorem regen_fallback_not_raw_text :
    json_loads (cleanResponseBroken ("```\\ssss\x7b")) = none ∧
    processResumeResponse ("```\\ssss\x7b") preferredModels 0 =
      .ok [("regenerated_resume", .str ("\x7b")),
           ("model_used", .str ("gemini-2.5-pro")),
           ("notes", .str resumeFallbackNote)] ∧
    pyStrip ("```\\ssss\x7b") = "```\\ssss\x7b" ∧
    ("\x7b" : String) ≠ "```\\ssss\x7b" := by
  exact ⟨by decide, by decide, by decide, by decide⟩

/-- C2 (code bug at gemini_service.py lines 318-319): the doubled backslashes
make the regeneration operation's regexes match a literal backslash, so real
markdown fences are NOT stripped there: a ```json-fenced payload fails to
parse and takes the fallback path (returning the still-fenced text), whereas
the same payload without fences parses into the structured result.  The
intended normalization `cleanResponse` (the one used by the other two
operations, per the spec) does strip the fences. -/
theorem regen_fence_stripping_broken :
    cleanResponse ("```json\n\x7b\"regenerated_resume\": \"CLEAN\", \"notes\": \"n\"\x7d\n```") =
      "\x7b\"regenerated_resume\": \"CLEAN\", \"notes\": \"n\"\x7d" ∧
    cleanResponseBroken ("```json\n\x7b\"regenerated_resume\": \"CLEAN\", \"notes\": \"n\"\x7d\n```") =
      "```json\n\x7b\"regenerated_resume\": \"CLEAN\", \"notes\": \"n\"\x7d\n```" ∧
    processResumeResponse
        ("```json\n\x7b\"regenerated_resume\": \"CLEAN\", \"notes\": \"n\"\x7d\n```")
        preferredModels 0 =
      .ok [("regenerated_resume",
              .str ("```json\n\x7b\"regenerated_resume\": \"CLEAN\", \"notes\": \"n\"\x7d\n```")),
           ("model_used", .str ("gemini-2.5-pro")),
           ("notes", .str resumeFallbackNote)] ∧
    processResumeResponse
        ("\x7b\"regenerated_resume\": \"CLEAN\", \"notes\": \"n\"\x7d")
        preferredModels 0 =
      .ok [("regenerated_resume", .str ("CLEAN")),
           ("model_used", .str ("gemini-2.5-pro")),
           ("notes", .str ("n"))] ∧
    ("```json\n\x7b\"regenerated_resume\": \"CLEAN\", \"notes\": \"n\"\x7d\n```" : String) ≠
      ("CLEAN" : String) := by
  exact ⟨by decide, by decide, by decide, by decide, by decide⟩

/-- C5 amended: when the declared content-length exceeds the 10MB cap,
`download_file` fails with the (re-wrapped) size error at the declared-size
check — the actual byte count is never re-examined (no `actualSizeRejected`
event and no content returned) — but the response body has already been
fully received (`bodyReceived` is the first event), because the
non-streaming `client.get` returns only after the whole body is transferred. -/
theorem declared_size_cap_rejection :
    ∀ resp url cl n,
      headerGet resp.headers ("content-length") = some cl →
      cl.isEmpty = false →
      pyInt cl = some n →
      n > (MAX_FILE_SIZE : Int) →
      download_file (.ok resp) url =
        (.error (unexpectedDlPrefix ++ declaredOversizeMsg),
         [DlEvent.bodyReceived, DlEvent.declaredSizeRejected]) := by
  intro resp url cl n hh he hp hn
  simp only [download_file, hh, he, hp, Bool.not_false, if_true, if_pos hn]
  rfl

/-- C5 amended, witness. -/
theorem declared_size_cap_rejection_witness :
    download_file (.ok ⟨[("content-length", "20971520")], [0, 1]⟩)
        ("https://example.com/resume.pdf") =
      (.error (unexpectedDlPrefix ++ declaredOversizeMsg),
       [DlEvent.bodyReceived, DlEvent.declaredSizeRejected]) := by
  exact declared_size_cap_rejection ⟨[("content-length", "20971520")], [0, 1]⟩
    ("https://example.com/resume.pdf") ("20971520") 20971520
    (by decide) (by decide) (by decide) (by decide)

/-- C5 counterexample: with a declared content-length of 20MB the download
does fail, but only after the whole body has been received — `bodyReceived`
occurs in the trace (first, before the rejection event), contradicting "the
body is not consumed when the declared size already exceeds the cap". -/
theorem declared_size_rejection_after_body_read :
    download_file (.ok ⟨[("content-length", "20971520")], [0, 1]⟩)
        ("https://example.com/resume.pdf") =
      (.error (unexpectedDlPrefix ++ declaredOversizeMsg),
       [DlEvent.bodyReceived, DlEvent.declaredSizeRejected]) ∧
    DlEvent.bodyReceived ∈
      [DlEvent.bodyReceived, DlEvent.declaredSizeRejected] ∧
    [DlEvent.bodyReceived, DlEvent.declaredSizeRejected].head? =
      some DlEvent.bodyReceived := by
  exact ⟨by decide, by decide, by decide⟩

theorem resume_ats_score_events (configured : Bool)
    (pdfOr docxOr : Except String (List String))
    (oracle : String → Except String String) (st : GeminiService)
    (f : UploadedFile) :
    (resume_ats_score configured pdfOr docxOr oracle st f).2 = [] ∨
    (resume_ats_score configured pdfOr docxOr oracle st f).2 = [HEvent.calledModel] := by
  unfold resume_ats_score
  repeat' split
  all_goals simp

theorem cover_letter_generator_events (configured : Bool)
    (pdfOr docxOr : Except String (List String))
    (oracle : String → Except String String) (st : GeminiService)
    (jd : String) (f : UploadedFile) :
    (cover_letter_generator configured pdfOr docxOr oracle st jd f).2 = [] ∨
    (cover_letter_generator configured pdfOr docxOr oracle st jd f).2 = [HEvent.calledModel] := by
  unfold cover_letter_generator
  repeat' split
  all_goals simp

theorem ats_resume_generator_events (configured : Bool)
    (pdfOr docxOr : Except String (List String))
    (oracle : String → Except String String) (st : GeminiService)
    (f : UploadedFile) :
    (ats_resume_generator configured pdfOr docxOr oracle st f).2 = [] ∨
    (ats_resume_generator configured pdfOr docxOr oracle st f).2 = [HEvent.calledModel] := by
  unfold ats_resume_generator
  repeat' split
  all_goals simp

/-- C1 amended: the three generation endpoints accept the resume only as an
uploaded multipart file.  A request without the file part — in particular a
JSON body carrying a `resume_url` — is rejected by request validation (422)
without invoking anything; an uploaded file is handed to the handler; and no
request, of any shape, ever reaches `URLDownloader.download_file` (the
`calledDownloader` event never occurs). -/
theorem endpoints_upload_only :
    ∀ configured pdfOr docxOr oracle st req jobPart,
      (HEvent.calledDownloader ∉
        (resume_ats_score_endpoint configured pdfOr docxOr oracle st req).2 ∧
       HEvent.calledDownloader ∉
        (cover_letter_generator_endpoint configured pdfOr docxOr oracle st jobPart req).2 ∧
       HEvent.calledDownloader ∉
        (ats_resume_generator_endpoint configured pdfOr docxOr oracle st req).2) ∧
      (req.filePart = none →
        resume_ats_score_endpoint configured pdfOr docxOr oracle st req =
          (.error (422, missingFileDetail), []) ∧
        cover_letter_generator_endpoint configured pdfOr docxOr oracle st jobPart req =
          (.error (422, missingFileDetail), []) ∧
        ats_resume_generator_endpoint configured pdfOr docxOr oracle st req =
          (.error (422, missingFileDetail), [])) ∧
      (∀ f jd, req.filePart = some f → jobPart = some jd →
        resume_ats_score_endpoint configured pdfOr docxOr oracle st req =
          resume_ats_score configured pdfOr docxOr oracle st f ∧
        cover_letter_generator_endpoint configured pdfOr docxOr oracle st jobPart req =
          cover_letter_generator configured pdfOr docxOr oracle st jd f ∧
        ats_resume_generator_endpoint configured pdfOr docxOr oracle st req =
          ats_resume_generator configured pdfOr docxOr oracle st f) := by
  intro configured pdfOr docxOr oracle st req jobPart
  refine ⟨⟨?_, ?_, ?_⟩, ?_, ?_⟩
  · unfold resume_ats_score_endpoint
    cases hf : req.filePart with
    | none => simp
    | some f =>
      rcases resume_ats_score_events configured pdfOr docxOr oracle st f with h | h <;>
        simp [h]
  · unfold cover_letter_generator_endpoint
    cases hf : req.filePart with
    | none => simp
    | some f =>
      cases hj : jobPart with
      | none => simp
      | some jd =>
        rcases cover_letter_generator_events configured pdfOr docxOr oracle st jd f with h | h <;>
          simp [h]
  · unfold ats_resume_generator_endpoint
    cases hf : req.filePart with
    | none => simp
    | some f =>
      rcases ats_resume_generator_events configured pdfOr docxOr oracle st f with h | h <;>
        simp [h]
  · intro hnone
    refine ⟨?_, ?_, ?_⟩
    · unfold resume_ats_score_endpoint
      rw [hnone]
    · unfold cover_letter_generator_endpoint
      rw [hnone]
    · unfold ats_resume_generator_endpoint
      rw [hnone]
  · intro f jd hsome hjob
    refine ⟨?_, ?_, ?_⟩
    · unfold resume_ats_score_endpoint
      rw [hsome]
    · unfold cover_letter_generator_endpoint
      rw [hsome, hjob]
    · unfold ats_resume_generator_endpoint
      rw [hsome]

/-- C1 amended, witness: a URL-only request is rejected 422 with an empty
event trace; an uploaded file goes to the handler. -/
theorem endpoints_upload_only_witness :
    resume_ats_score_endpoint true (.ok []) (.ok []) (fun _ => .error ("x"))
        ⟨preferredModels, 0, "gemini-2.5-pro"⟩
        ⟨none, some ("https://example.com/resume.pdf")⟩ =
      (.error (422, missingFileDetail), []) ∧
    resume_ats_score_endpoint true (.ok []) (.ok []) (fun _ => .error ("x"))
        ⟨preferredModels, 0, "gemini-2.5-pro"⟩
        ⟨some ⟨"r.pdf", [0]⟩, none⟩ =
      resume_ats_score true (.ok []) (.ok []) (fun _ => .error ("x"))
        ⟨preferredModels, 0, "gemini-2.5-pro"⟩ ⟨"r.pdf", [0]⟩ := by
  constructor
  · exact ((endpoints_upload_only true (.ok []) (.ok []) (fun _ => .error ("x"))
      ⟨preferredModels, 0, "gemini-2.5-pro"⟩
      ⟨none, some ("https://example.com/resume.pdf")⟩ none).2.1 rfl).1
  · exact ((endpoints_upload_only true (.ok []) (.ok []) (fun _ => .error ("x"))
      ⟨preferredModels, 0, "gemini-2.5-pro"⟩
      ⟨some ⟨"r.pdf", [0]⟩, none⟩ (some "jd")).2.2 ⟨"r.pdf", [0]⟩ ("jd") rfl rfl).1

/-- C1 counterexample: a request carrying only a JSON `resume_url` body (no
uploaded file) is rejected with a 422 validation error and an empty event
trace — no download, no extraction, no model call — refuting "accepts the
resume as a JSON body carrying a resume_url, fetched through
URLDownloader.download_file". -/
theorem url_body_request_is_rejected :
    resume_ats_score_endpoint true (.ok []) (.ok []) (fun _ => .error ("x"))
        ⟨preferredModels, 0, "gemini-2.5-pro"⟩
        ⟨none, some ("https://example.com/resume.pdf")⟩ =
      (.error (422, missingFileDetail), []) ∧
    cover_letter_generator_endpoint true (.ok []) (.ok []) (fun _ => .error ("x"))
        ⟨preferredModels, 0, "gemini-2.5-pro"⟩ (some ("job description text here long enough"))
        ⟨none, some ("https://example.com/resume.pdf")⟩ =
      (.error (422, missingFileDetail), []) ∧
    ats_resume_generator_endpoint true (.ok []) (.ok []) (fun _ => .error ("x"))
        ⟨preferredModels, 0, "gemini-2.5-pro"⟩
        ⟨none, some ("https://example.com/resume.pdf")⟩ =
      (.error (422, missingFileDetail), []) ∧
    HEvent.calledDownloader ∉ ([] : List HEvent) := by
  exact ⟨by decide, by decide, by decide, by decide⟩

theorem pyStrip_len_ge_isEmpty_false (t : String) (h : 50 ≤ (pyStrip t).length) :
    t.isEmpty = false := by
  cases hti : t.isEmpty with
  | false => rfl
  | true =>
    have hemp : t = "" := (String.isEmpty_iff t).mp hti
    rw [hemp] at h
    have : (pyStrip ("")).length = 0 := by decide
    omega

/-- C8 amended: in each generation handler (configured service, valid
extension, size within bounds, extraction succeeded with text `t`), the
request is rejected 400 with the insufficient-text message and without any
model call exactly when the trimmed extracted text is shorter than 50
characters; text of trimmed length ≥ 50 proceeds to the model invocation in
the score and regeneration handlers — and in the cover-letter handler only
when additionally the trimmed job description has at least 30 characters;
otherwise that handler rejects 400 (short job description) without calling
the model. -/
theorem min_text_length_gate :
    ∀ pdfOr docxOr oracle st f t,
      is_valid_extension f.filename = true →
      ¬ f.content.length > MAX_FILE_SIZE →
      extract_text pdfOr docxOr f.filename = .ok t →
      ((pyStrip t).length < 50 →
        resume_ats_score true pdfOr docxOr oracle st f =
          (.error (400, insufficientTextMsg), []) ∧
        ats_resume_generator true pdfOr docxOr oracle st f =
          (.error (400, insufficientTextMsg), []) ∧
        ∀ jd, cover_letter_generator true pdfOr docxOr oracle st jd f =
          (.error (400, insufficientTextMsg), [])) ∧
      (50 ≤ (pyStrip t).length →
        (resume_ats_score true pdfOr docxOr oracle st f).2 = [HEvent.calledModel] ∧
        (ats_resume_generator true pdfOr docxOr oracle st f).2 = [HEvent.calledModel] ∧
        (∀ jd, jd.isEmpty = false → 30 ≤ (pyStrip jd).length →
          (cover_letter_generator true pdfOr docxOr oracle st jd f).2 =
            [HEvent.calledModel]) ∧
        (∀ jd, jd.isEmpty = true ∨ (pyStrip jd).length < 30 →
          cover_letter_generator true pdfOr docxOr oracle st jd f =
            (.error (400, jobTooShortMsg), []))) := by
  intro pdfOr docxOr oracle st f t hv hsize hx
  constructor
  · intro hlt
    have hcond : (t.isEmpty || decide ((pyStrip t).length < 50)) = true := by
      simp [hlt]
    refine ⟨?_, ?_, ?_⟩
    · simp only [resume_ats_score, Bool.not_true, hv, hx, hcond]
      simp [hsize]
    · simp only [ats_resume_generator, Bool.not_true, hv, hx, hcond]
      simp [hsize]
    · intro jd
      simp only [cover_letter_generator, Bool.not_true, hv, hx, hcond]
      simp [hsize]
  · intro hge
    have hne : t.isEmpty = false := pyStrip_len_ge_isEmpty_false t hge
    have hcond : (t.isEmpty || decide ((pyStrip t).length < 50)) = false := by
      simp [hne, Nat.not_lt.mpr hge]
    refine ⟨?_, ?_, ?_, ?_⟩
    · simp only [resume_ats_score, Bool.not_true, hv, hx, hcond]
      simp only [hsize]
      rcases hm : analyze_resume_for_ats oracle st with ⟨res, st2, att2⟩
      cases res <;> simp [hm]
    · simp only [ats_resume_generator, Bool.not_true, hv, hx, hcond]
      simp only [hsize]
      rcases hm : generate_ats_optimized_resume oracle st with ⟨res, st2, att2⟩
      cases res <;> simp [hm]
    · intro jd hjne hjge
      have hjcond : (jd.isEmpty || decide ((pyStrip jd).length < 30)) = false := by
        simp [hjne, Nat.not_lt.mpr hjge]
      simp only [cover_letter_generator, Bool.not_true, hv, hx, hcond, hjcond]
      simp only [hsize]
      rcases hm : generate_cover_letter oracle st with ⟨res, st2, att2⟩
      cases res <;> simp [hm]
    · intro jd hjd
      have hjcond : (jd.isEmpty || decide ((pyStrip jd).length < 30)) = true := by
        rcases hjd with h | h <;> simp [h]
      simp only [cover_letter_generator, Bool.not_true, hv, hx, hcond, hjcond]
      simp [hsize]

/-- C8 amended, witness: a 52-character extracted text passes the gate and
the model is invoked. -/
theorem min_text_length_gate_witness :
    is_valid_extension ("r.pdf") = true ∧
    extract_text (.ok ["ABCDEFGHIJKLMNOPQRSTUVWXYZabcdefghijklmnopqrstuvwxyz"]) (.ok [])
      ("r.pdf") = .ok ("ABCDEFGHIJKLMNOPQRSTUVWXYZabcdefghijklmnopqrstuvwxyz") ∧
    (resume_ats_score true
      (.ok ["ABCDEFGHIJKLMNOPQRSTUVWXYZabcdefghijklmnopqrstuvwxyz"]) (.ok [])
      (fun _ => .ok ("\x7b\"score\": 50\x7d"))
      ⟨preferredModels, 0, "gemini-2.5-pro"⟩ ⟨"r.pdf", [0]⟩).2 = [HEvent.calledModel] := by
  refine ⟨by decide, by decide, ?_⟩
  exact ((min_text_length_gate
    (.ok ["ABCDEFGHIJKLMNOPQRSTUVWXYZabcdefghijklmnopqrstuvwxyz"]) (.ok [])
    (fun _ => .ok ("\x7b\"score\": 50\x7d"))
    ⟨preferredModels, 0, "gemini-2.5-pro"⟩ ⟨"r.pdf", [0]⟩
    ("ABCDEFGHIJKLMNOPQRSTUVWXYZabcdefghijklmnopqrstuvwxyz")
    (by decide) (by decide) (by decide)).2 (by decide)).1

/-- C8 counterexample: in the cover-letter handler a request whose extracted
text is 52 characters (≥ 50) is still rejected 400 without a model call when
the job description is under 30 characters — so "rejected with 400 and no
model call exactly when trimmed text < 50" fails there. -/
theorem cover_letter_short_job_rejected :
    extract_text (.ok ["ABCDEFGHIJKLMNOPQRSTUVWXYZabcdefghijklmnopqrstuvwxyz"]) (.ok [])
      ("r.pdf") = .ok ("ABCDEFGHIJKLMNOPQRSTUVWXYZabcdefghijklmnopqrstuvwxyz") ∧
    ¬ ((pyStrip ("ABCDEFGHIJKLMNOPQRSTUVWXYZabcdefghijklmnopqrstuvwxyz")).length < 50) ∧
    cover_letter_generator true
      (.ok ["ABCDEFGHIJKLMNOPQRSTUVWXYZabcdefghijklmnopqrstuvwxyz"]) (.ok [])
      (fun _ => .ok ("x")) ⟨preferredModels, 0, "gemini-2.5-pro"⟩
      ("short") ⟨"r.pdf", [0]⟩ =
      (.error (400, jobTooShortMsg), []) ∧
    HEvent.calledModel ∉ ([] : List HEvent) := by
  exact ⟨by decide, by decide, by decide, by decide⟩
